import Mathlib

/-!
# extmigration: the `migrate` command

A shallow embedding of `command.go` (the `extMigrateCommand` type with its methods `Init`,
`modelUUID`, `getMigrationSpec`, `connectMigrationMaster` and `Run`).

The command talks to code that lives outside the repository: the tag parser of
`gopkg.in/juju/names.v2`, the client store and API clients of juju, the macaroon decoder.
Those collaborators are the fields of `Env`. Every call into a collaborator that can fail or
that has an effect is appended, with its outcome, to a `History`; a collaborator that is not a
pure function may answer depending on the whole history of earlier calls, so nothing is assumed
about them beyond determinism given that history.

Modelling choices:
* Go strings are `String`, slices are `List`, a nil slice is `[]`.
* `c.ClientStore()` and `c.ControllerName()` are getters: the store is part of `Env`, the
  controller name is a field of the embedded base.
* `[]byte(accountInfo.Macaroon)` only converts; the decoder takes the string.
* `names.NewModelTag`, `migrationmaster.NewClient` and the struct literals are constructors;
  `api.DialOpts{}` is a constant and is not recorded.
* `ctx.Infof` is recorded with its format and arguments, `time.Sleep` with its duration.
* Indexing `modelUUIDs[0]` on an empty answer is a run-time panic, `Res.runtimePanic`.
-/

namespace ExtMigration

/-! ## Data model -/

/-- Go `error` values as built with `github.com/juju/errors`: `errors.New`, `errors.Trace`
and `errors.Annotate`. Collaborators may return any such value. -/
inductive GoError where
  | New (message : String)
  | Trace (other : GoError)
  | Annotate (other : GoError) (message : String)
  deriving DecidableEq, Repr

/-- The type `names.MachineTag`: a struct holding the machine id. -/
structure MachineTag where
  id : String
  deriving DecidableEq, Repr

/-- The type `names.ModelTag`, as built by `names.NewModelTag`. -/
structure ModelTag where
  uuid : String
  deriving DecidableEq, Repr

/-- A decoded `macaroon.Macaroon`; its content is kept abstract. -/
structure Macaroon where
  content : String
  deriving DecidableEq, Repr

/-- The fields of `jujuclient.ControllerDetails` the command reads. -/
structure ControllerDetails where
  ControllerUUID : String
  APIEndpoints : List String
  CACert : String
  deriving DecidableEq, Repr

/-- The fields of `jujuclient.AccountDetails` the command reads. -/
structure AccountDetails where
  User : String
  Password : String
  Macaroon : String
  deriving DecidableEq, Repr

/-- The type `controller.MigrationSpec`; `TargetMacaroons` is a `[]macaroon.Slice`. -/
structure MigrationSpec where
  ExternalControl : Bool
  ModelUUID : String
  TargetControllerUUID : String
  TargetAddrs : List String
  TargetCACert : String
  TargetUser : String
  TargetPassword : String
  TargetMacaroons : List (List Macaroon)
  deriving DecidableEq, Repr

/-- The fields of `api.Info` filled in by `connectMigrationMaster`. -/
structure Info where
  Addrs : List String
  CACert : String
  ModelTag : ModelTag
  Tag : MachineTag
  Password : String
  Nonce : String
  deriving DecidableEq, Repr

/-- The type `coremigration.Phase`: the two values the command uses, and the remaining
values of the enumeration by number. -/
inductive Phase where
  | ABORT
  | ABORTDONE
  | other (n : Nat)
  deriving DecidableEq, Repr

/-- The controller API client handle returned by `NewControllerAPIClient`. -/
structure APIClient where
  handle : Nat
  deriving DecidableEq, Repr

/-- The connection returned by `api.Open`. -/
structure Connection where
  handle : Nat
  deriving DecidableEq, Repr

/-- The type `migrationmaster.Client`, as built by `migrationmaster.NewClient` around a
connection. -/
structure MigrationMasterClient where
  conn : Connection
  deriving DecidableEq, Repr

/-- The embedded `modelcmd.ControllerCommandBase`: the name of the controller the command is
run against (what `ControllerName()` returns). -/
structure ControllerCommandBase where
  controllerName : String
  deriving DecidableEq, Repr

/-- The struct `extMigrateCommand`. -/
structure extMigrateCommand where
  base : ControllerCommandBase
  model : String
  targetController : String
  machineTag : MachineTag
  machinePassword : String
  machineNonce : String
  deriving DecidableEq, Repr

/-! ## Calls to collaborators and their history -/

/-- A call that leaves the repository's code. -/
inductive Call where
  | ParseMachineTag (tag : String)
  | ModelUUIDs (modelNames : List String)
  | ControllerByName (name : String)
  | AccountDetails (name : String)
  | UnmarshalJSON (data : String)
  | NewControllerAPIClient
  | InitiateMigration (api : APIClient) (spec : MigrationSpec)
  | Infof (format : String) (args : List String)
  | Sleep (nanoseconds : Nat)
  | Open (info : Info)
  | SetPhase (client : MigrationMasterClient) (phase : Phase)
  deriving DecidableEq, Repr

/-- A call together with its outcome: `err = none` when it returned a nil error (or returns
nothing), `err = some e` when it returned the error `e`. -/
structure Event where
  call : Call
  err : Option GoError
  deriving DecidableEq, Repr

/-- The calls made so far, oldest first. -/
abbrev History := List Event

/-- The collaborators. `ParseMachineTag` and `UnmarshalJSON` are pure functions of their
argument; the others may answer depending on the calls made before. -/
structure Env where
  ParseMachineTag : String → Except GoError MachineTag
  ModelUUIDs : History → List String → Except GoError (List String)
  ControllerByName : History → String → Except GoError ControllerDetails
  AccountDetails : History → String → Except GoError AccountDetails
  UnmarshalJSON : String → Except GoError Macaroon
  NewControllerAPIClient : History → Except GoError APIClient
  InitiateMigration : History → APIClient → MigrationSpec → Except GoError String
  Open : History → Info → Except GoError Connection
  SetPhase : History → MigrationMasterClient → Phase → Option GoError

/-- What a Go function returning `(T, error)` can do: return a value with a nil error,
return an error, or panic at run time. -/
inductive Res (α : Type) where
  | ok (value : α)
  | err (e : GoError)
  | runtimePanic (message : String)
  deriving DecidableEq, Repr

/-- The error of a collaborator's answer, `none` for a nil error. -/
def errOf {α : Type} : Except GoError α → Option GoError
  | .ok _ => none
  | .error e => some e

/-- The value `time.Second`, in nanoseconds. -/
def Second : Nat := 1000000000

/-! ## `Init` -/

/-- The method `extMigrateCommand.Init`: returns the error (`none` for nil), the command as
the method leaves it, and the history extended by the parser call if one was made. -/
def Init (env : Env) (c : extMigrateCommand) (args : List String) (h : History) :
    Option GoError × extMigrateCommand × History :=
  if args.length < 1 then
    (some (.New "model not specified"), c, h)
  else if args.length < 2 then
    (some (.New "target controller not specified"), c, h)
  else if args.length < 3 then
    (some (.New "machine tag not specified"), c, h)
  else if args.length < 4 then
    (some (.New "machine password not specified"), c, h)
  else if h5 : args.length < 5 then
    (some (.New "machine nonce not specified"), c, h)
  else if args.length > 5 then
    (some (.New "too many arguments specified"), c, h)
  else
    let c := { c with model := args[0], targetController := args[1] }
    let r := env.ParseMachineTag args[2]
    let h := h ++ [⟨.ParseMachineTag args[2], errOf r⟩]
    match r with
    | .error err => (some err, c, h)
    | .ok tag =>
      let c := { c with machineTag := tag, machinePassword := args[3], machineNonce := args[4] }
      (none, c, h)

/-! ## Building the migration spec -/

/-- The method `extMigrateCommand.modelUUID`: asks `ModelUUIDs` for the one model name and
returns element 0 of the answer; indexing an empty answer is a run-time panic. -/
def modelUUID (env : Env) (c : extMigrateCommand) (h : History) : Res String × History :=
  let r := env.ModelUUIDs h [c.model]
  let h := h ++ [⟨.ModelUUIDs [c.model], errOf r⟩]
  match r with
  | .error err => (.err (.Trace err), h)
  | .ok modelUUIDs =>
    match modelUUIDs with
    | [] => (.runtimePanic "index out of range [0] with length 0", h)
    | uuid :: _ => (.ok uuid, h)

/-- The method `extMigrateCommand.getMigrationSpec`. -/
def getMigrationSpec (env : Env) (c : extMigrateCommand) (h : History) :
    Res MigrationSpec × History :=
  match modelUUID env c h with
  | (.err err, h) => (.err err, h)
  | (.runtimePanic m, h) => (.runtimePanic m, h)
  | (.ok modelUUID, h) =>
    let r := env.ControllerByName h c.targetController
    let h := h ++ [⟨.ControllerByName c.targetController, errOf r⟩]
    match r with
    | .error err => (.err err, h)
    | .ok controllerInfo =>
      let r := env.AccountDetails h c.targetController
      let h := h ++ [⟨.AccountDetails c.targetController, errOf r⟩]
      match r with
      | .error err => (.err err, h)
      | .ok accountInfo =>
        let build (macs : List (List Macaroon)) : MigrationSpec :=
          { ExternalControl := true
            ModelUUID := modelUUID
            TargetControllerUUID := controllerInfo.ControllerUUID
            TargetAddrs := controllerInfo.APIEndpoints
            TargetCACert := controllerInfo.CACert
            TargetUser := accountInfo.User
            TargetPassword := accountInfo.Password
            TargetMacaroons := macs }
        if accountInfo.Macaroon ≠ "" then
          let r := env.UnmarshalJSON accountInfo.Macaroon
          let h := h ++ [⟨.UnmarshalJSON accountInfo.Macaroon, errOf r⟩]
          match r with
          | .error err => (.err (.Annotate err "unmarshalling macaroon"), h)
          | .ok mac => (.ok (build [[mac]]), h)
        else
          (.ok (build []), h)

/-! ## Connecting to the migration master and running -/

/-- The method `extMigrateCommand.connectMigrationMaster`. -/
def connectMigrationMaster (env : Env) (c : extMigrateCommand) (h : History) :
    Res MigrationMasterClient × History :=
  let r := env.ControllerByName h c.base.controllerName
  let h := h ++ [⟨.ControllerByName c.base.controllerName, errOf r⟩]
  match r with
  | .error err => (.err err, h)
  | .ok controllerInfo =>
    match modelUUID env c h with
    | (.err err, h) => (.err err, h)
    | (.runtimePanic m, h) => (.runtimePanic m, h)
    | (.ok modelUUID, h) =>
      let apiInfo : Info :=
        { Addrs := controllerInfo.APIEndpoints
          CACert := controllerInfo.CACert
          ModelTag := ⟨modelUUID⟩
          Tag := c.machineTag
          Password := c.machinePassword
          Nonce := c.machineNonce }
      let r := env.Open h apiInfo
      let h := h ++ [⟨.Open apiInfo, errOf r⟩]
      match r with
      | .error err => (.err err, h)
      | .ok apiConn => (.ok ⟨apiConn⟩, h)

/-- The method `extMigrateCommand.Run`; `Res.ok ()` is the nil error. -/
def Run (env : Env) (c : extMigrateCommand) (h : History) : Res Unit × History :=
  match getMigrationSpec env c h with
  | (.err err, h) => (.err err, h)
  | (.runtimePanic m, h) => (.runtimePanic m, h)
  | (.ok spec, h) =>
    let r := env.NewControllerAPIClient h
    let h := h ++ [⟨.NewControllerAPIClient, errOf r⟩]
    match r with
    | .error err => (.err err, h)
    | .ok api =>
      let r := env.InitiateMigration h api spec
      let h := h ++ [⟨.InitiateMigration api spec, errOf r⟩]
      match r with
      | .error err => (.err err, h)
      | .ok id =>
        let h := h ++ [⟨.Infof "Migration started with ID %q" [id], none⟩]
        let h := h ++ [⟨.Sleep (5 * Second), none⟩]
        match connectMigrationMaster env c h with
        | (.err err, h) => (.err err, h)
        | (.runtimePanic m, h) => (.runtimePanic m, h)
        | (.ok masterClient, h) =>
          let h := h ++ [⟨.Infof "Set phase to ABORT" [], none⟩]
          let err := env.SetPhase h masterClient .ABORT
          let h := h ++ [⟨.SetPhase masterClient .ABORT, err⟩]
          match err with
          | some err => (.err err, h)
          | none =>
            let h := h ++ [⟨.Infof "Set phase to ABORTDONE" [], none⟩]
            let err := env.SetPhase h masterClient .ABORTDONE
            let h := h ++ [⟨.SetPhase masterClient .ABORTDONE, err⟩]
            match err with
            | some err => (.err err, h)
            | none => (.ok (), h)

/-! ## Observing a history -/

/-- The requests that reach a controller over the network: the migration request sent to the
target controller, the connection to the migration master, a forced phase. -/
inductive Remote where
  | InitiateMigration (spec : MigrationSpec)
  | Connect
  | SetPhase (phase : Phase)
  deriving DecidableEq, Repr

/-- The remote request a call stands for, if it is one. -/
def Call.remote : Call → Option Remote
  | .InitiateMigration _ spec => some (.InitiateMigration spec)
  | .Open _ => some .Connect
  | .SetPhase _ phase => some (.SetPhase phase)
  | _ => none

/-- The remote requests of a history, in the order they were made. -/
def remoteCalls (h : History) : List Remote :=
  h.filterMap (fun ev => ev.call.remote)

/-- Every call of the history returned without error. -/
def allSucceeded (k : History) : Bool :=
  k.all (fun ev => ev.err.isNone)

/-- The history is a run of successful calls closed by one call that failed. -/
def endsWithFailure : History → Bool
  | [] => false
  | [ev] => ev.err.isSome
  | ev :: k => ev.err.isNone && endsWithFailure k

/-- The shape of the calls behind a result: an error comes from a last, failing call after
successful ones; otherwise every call succeeded. -/
def stopsRight {α : Type} (r : Res α) (k : History) : Bool :=
  match r with
  | .err _ => endsWithFailure k
  | _ => allSucceeded k

/-- The events `Run` appends to the history `h` it starts from. -/
def runEvents (env : Env) (c : extMigrateCommand) (h : History) : History :=
  (Run env c h).2.drop h.length

/-- The outcome the collaborators give to a call made after the history `k`: the error of
their answer, `none` for a nil error; logging and sleeping return nothing. -/
def Env.outcome (env : Env) (k : History) : Call → Option GoError
  | .ParseMachineTag tag => errOf (env.ParseMachineTag tag)
  | .ModelUUIDs modelNames => errOf (env.ModelUUIDs k modelNames)
  | .ControllerByName name => errOf (env.ControllerByName k name)
  | .AccountDetails name => errOf (env.AccountDetails k name)
  | .UnmarshalJSON data => errOf (env.UnmarshalJSON data)
  | .NewControllerAPIClient => errOf (env.NewControllerAPIClient k)
  | .InitiateMigration api spec => errOf (env.InitiateMigration k api spec)
  | .Infof _ _ => none
  | .Sleep _ => none
  | .Open info => errOf (env.Open k info)
  | .SetPhase client phase => env.SetPhase k client phase

/-- The events `k`, recorded after the history `h`, each carry the outcome the collaborators
give to that call at that point. -/
def answered (env : Env) : History → History → Bool
  | _, [] => true
  | h, ev :: k => decide (ev.err = env.outcome h ev.call) && answered env (h ++ [ev]) k

/-! ## A concrete environment -/

/-- A tag parser to run the model on: it accepts `machine-` followed by decimal digits. -/
def sampleParseMachineTag (tag : String) : Except GoError MachineTag :=
  match tag.data with
  | 'm' :: 'a' :: 'c' :: 'h' :: 'i' :: 'n' :: 'e' :: '-' :: d :: ds =>
    if (d :: ds).all Char.isDigit then .ok ⟨String.mk (d :: ds)⟩
    else .error (.New "not a valid machine tag")
  | _ => .error (.New "not a valid tag")

/-- A store that knows the model `model-a`, the source controller `ctrl-a` and the target
controller `ctrl-b` with an account without macaroon, and controllers that accept every
request. -/
def sampleEnv : Env where
  ParseMachineTag := sampleParseMachineTag
  ModelUUIDs := fun _ modelNames =>
    if modelNames = ["model-a"] then .ok ["U1"] else .error (.New "model not found")
  ControllerByName := fun _ name =>
    if name = "ctrl-b" then .ok ⟨"CTRLID", ["h:1"], "C"⟩
    else if name = "ctrl-a" then .ok ⟨"SRCID", ["s:1"], "S"⟩
    else .error (.New "controller not found")
  AccountDetails := fun _ name =>
    if name = "ctrl-b" then .ok ⟨"u", "p", ""⟩ else .error (.New "account not found")
  UnmarshalJSON := fun data =>
    if data = "bad" then .error (.New "invalid macaroon") else .ok ⟨data⟩
  NewControllerAPIClient := fun _ => .ok ⟨1⟩
  InitiateMigration := fun _ _ _ => .ok "migration-1"
  Open := fun _ _ => .ok ⟨2⟩
  SetPhase := fun _ _ _ => none

/-- A store whose account for `ctrl-b` carries the macaroon text `data`. -/
def sampleEnvWithMacaroon (data : String) : Env :=
  { sampleEnv with
    AccountDetails := fun _ name =>
      if name = "ctrl-b" then .ok ⟨"u", "p", data⟩ else .error (.New "account not found") }

/-- The environment of `sampleEnv` with a target controller that refuses the migration. -/
def sampleEnvInitiateFails : Env :=
  { sampleEnv with InitiateMigration := fun _ _ _ => .error (.New "migration refused") }

/-- The environment of `sampleEnv` with a migration master that refuses the phase ABORT. -/
def sampleEnvAbortFails : Env :=
  { sampleEnv with
    SetPhase := fun _ _ phase => if phase = .ABORT then some (.New "phase rejected") else none }

/-- The command before `Init`, run against the controller `ctrl-a`. -/
def sampleCommand : extMigrateCommand :=
  { base := ⟨"ctrl-a"⟩, model := "", targetController := "", machineTag := ⟨""⟩,
    machinePassword := "", machineNonce := "" }

/-- The command after `Init` on `model-a ctrl-b machine-3 pw123 nonce-xyz`. -/
def sampleReady : extMigrateCommand :=
  { base := ⟨"ctrl-a"⟩, model := "model-a", targetController := "ctrl-b", machineTag := ⟨"3"⟩,
    machinePassword := "pw123", machineNonce := "nonce-xyz" }

/-- The command of `sampleReady` with a target controller the store does not know. -/
def sampleUnknownTarget : extMigrateCommand :=
  { sampleReady with targetController := "target-controller-name" }

/-- The spec `getMigrationSpec` builds for `sampleReady` in `sampleEnv`. -/
def sampleSpec : MigrationSpec :=
  { ExternalControl := true, ModelUUID := "U1", TargetControllerUUID := "CTRLID",
    TargetAddrs := ["h:1"], TargetCACert := "C", TargetUser := "u", TargetPassword := "p",
    TargetMacaroons := [] }

/-! ## `Init`: argument errors -/

/-- C1: with fewer than five arguments `Init` returns the error naming the first missing
field, chosen by the number of arguments alone; the command is left as it was and no call to
the tag parser is made, whatever the parser and the arguments are. -/
theorem Init_missing_argument (env : Env) (c : extMigrateCommand) (args : List String)
    (h : History) (hlen : args.length < 5) :
    Init env c args h =
      (some (.New (match args.length with
        | 0 => "model not specified"
        | 1 => "target controller not specified"
        | 2 => "machine tag not specified"
        | 3 => "machine password not specified"
        | _ => "machine nonce not specified")), c, h) := by
  match args, hlen with
  | [], _ => rfl
  | [_], _ => rfl
  | [_, _], _ => rfl
  | [_, _, _], _ => rfl
  | [_, _, _, _], _ => rfl
  | _ :: _ :: _ :: _ :: _ :: _, hl => simp only [List.length_cons] at hl; omega

/-- Witness of C1: two arguments, the second not even a name; the error is about the
machine tag. -/
theorem Init_missing_argument_witness :
    [("model-a" : String), "???"].length < 5 ∧
      Init sampleEnv sampleCommand ["model-a", "???"] [] =
        (some (.New "machine tag not specified"), sampleCommand, []) :=
  ⟨by decide, Init_missing_argument sampleEnv sampleCommand ["model-a", "???"] [] (by decide)⟩

/-- C2: with more than five arguments `Init` returns the error `too many arguments
specified`, for every parser and every content of the arguments; the tag parser is not
called. -/
theorem Init_too_many_arguments (env : Env) (c : extMigrateCommand) (args : List String)
    (h : History) (hlen : 5 < args.length) :
    Init env c args h = (some (.New "too many arguments specified"), c, h) := by
  unfold Init
  have h1 : ¬ args.length < 1 := by omega
  have h2 : ¬ args.length < 2 := by omega
  have h3 : ¬ args.length < 3 := by omega
  have h4 : ¬ args.length < 4 := by omega
  have h5 : ¬ args.length < 5 := by omega
  simp only [h1, h2, h3, h4, h5, hlen, if_true, if_false, dite_false, gt_iff_lt, ↓reduceIte,
    ↓reduceDIte]

/-- Witness of C2: six arguments whose third one the parser rejects. -/
theorem Init_too_many_arguments_witness :
    sampleEnv.ParseMachineTag "not-a-tag" = .error (.New "not a valid tag") ∧
      Init sampleEnv sampleCommand ["model-a", "ctrl-b", "not-a-tag", "pw", "n", "extra"] [] =
        (some (.New "too many arguments specified"), sampleCommand, []) :=
  ⟨rfl, Init_too_many_arguments sampleEnv sampleCommand
    ["model-a", "ctrl-b", "not-a-tag", "pw", "n", "extra"] [] (by decide)⟩

/-- With a number of arguments other than five `Init` returns an error: one of the six length
tests holds. -/
theorem Init_error_of_length_ne (env : Env) (c : extMigrateCommand) (args : List String)
    (h : History) (hlen : args.length ≠ 5) : ∃ e, (Init env c args h).1 = some e := by
  unfold Init
  by_cases h1 : args.length < 1
  · exact ⟨_, by rw [if_pos h1]⟩
  by_cases h2 : args.length < 2
  · exact ⟨_, by rw [if_neg h1, if_pos h2]⟩
  by_cases h3 : args.length < 3
  · exact ⟨_, by rw [if_neg h1, if_neg h2, if_pos h3]⟩
  by_cases h4 : args.length < 4
  · exact ⟨_, by rw [if_neg h1, if_neg h2, if_neg h3, if_pos h4]⟩
  by_cases h5 : args.length < 5
  · exact ⟨_, by rw [if_neg h1, if_neg h2, if_neg h3, if_neg h4, dif_pos h5]⟩
  have h6 : args.length > 5 := by omega
  exact ⟨_, by rw [if_neg h1, if_neg h2, if_neg h3, if_neg h4, dif_neg h5, if_pos h6]⟩

/-! ## `Init`: five arguments -/

/-- What `Init` does on exactly five arguments: the model and target controller are stored,
the tag parser is called once on the third argument, and its answer decides the rest. -/
theorem Init_five (env : Env) (c : extMigrateCommand) (a0 a1 a2 a3 a4 : String) (h : History) :
    Init env c [a0, a1, a2, a3, a4] h =
      match env.ParseMachineTag a2 with
      | .error err =>
        (some err, { c with model := a0, targetController := a1 },
          h ++ [⟨.ParseMachineTag a2, some err⟩])
      | .ok tag =>
        (none, { base := c.base, model := a0, targetController := a1, machineTag := tag,
                 machinePassword := a3, machineNonce := a4 },
          h ++ [⟨.ParseMachineTag a2, none⟩]) := by
  unfold Init
  cases hp : env.ParseMachineTag a2 <;> simp [hp, errOf]

/-- A list of length five is a list of five elements. -/
theorem eq_five_of_length {α : Type} (args : List α) (hlen : args.length = 5) :
    ∃ a0 a1 a2 a3 a4, args = [a0, a1, a2, a3, a4] := by
  match args, hlen with
  | [a0, a1, a2, a3, a4], _ => exact ⟨a0, a1, a2, a3, a4, rfl⟩

/-- C3: on exactly five arguments whose third one the tag parser rejects with error `e`,
`Init` fails and the error it returns is `e` itself. -/
theorem Init_invalid_tag (env : Env) (c : extMigrateCommand) (args : List String)
    (h : History) (e : GoError) (hlen : args.length = 5)
    (hparse : env.ParseMachineTag args[2] = .error e) :
    (Init env c args h).1 = some e := by
  obtain ⟨a0, a1, a2, a3, a4, rfl⟩ := eq_five_of_length args hlen
  simp only [List.getElem_cons_succ, List.getElem_cons_zero] at hparse
  rw [Init_five, hparse]

/-- Witness of C3: the third argument is `not-a-tag`. -/
theorem Init_invalid_tag_witness :
    (Init sampleEnv sampleCommand ["model-a", "ctrl-b", "not-a-tag", "pw123", "nonce-xyz"] []).1
      = some (.New "not a valid tag") :=
  Init_invalid_tag sampleEnv sampleCommand ["model-a", "ctrl-b", "not-a-tag", "pw123", "nonce-xyz"]
    [] (.New "not a valid tag") rfl rfl

/-- C4: `Init` returns a nil error exactly when there are five arguments and the third one
parses as a machine tag; the command then holds the first argument as model, the second as
target controller, the parsed tag, the fourth as machine password and the fifth as machine
nonce (the embedded base is untouched). -/
theorem Init_ok_iff (env : Env) (c : extMigrateCommand) (args : List String) (h : History) :
    ((Init env c args h).1 = none ↔
      ∃ a0 a1 a2 a3 a4 tag, args = [a0, a1, a2, a3, a4] ∧ env.ParseMachineTag a2 = .ok tag) ∧
    (∀ a0 a1 a2 a3 a4 tag, args = [a0, a1, a2, a3, a4] → env.ParseMachineTag a2 = .ok tag →
      (Init env c args h).2.1 =
        { base := c.base, model := a0, targetController := a1, machineTag := tag,
          machinePassword := a3, machineNonce := a4 }) := by
  constructor
  · constructor
    · intro hnil
      by_cases heq : args.length = 5
      · obtain ⟨a0, a1, a2, a3, a4, rfl⟩ := eq_five_of_length args heq
        rw [Init_five] at hnil
        cases hp : env.ParseMachineTag a2 with
        | error err => rw [hp] at hnil; simp at hnil
        | ok tag => exact ⟨a0, a1, a2, a3, a4, tag, rfl, hp⟩
      · obtain ⟨e, he⟩ := Init_error_of_length_ne env c args h heq
        rw [he] at hnil
        exact absurd hnil (by simp)
    · rintro ⟨a0, a1, a2, a3, a4, tag, rfl, hp⟩
      rw [Init_five, hp]
  · rintro a0 a1 a2 a3 a4 tag rfl hp
    rw [Init_five, hp]

/-- Witness of C4: `model-a ctrl-b machine-3 pw123 nonce-xyz` is accepted and fills the
command. -/
theorem Init_ok_iff_witness :
    (Init sampleEnv sampleCommand ["model-a", "ctrl-b", "machine-3", "pw123", "nonce-xyz"] []).1
      = none ∧
    (Init sampleEnv sampleCommand ["model-a", "ctrl-b", "machine-3", "pw123", "nonce-xyz"] []).2.1
      = sampleReady :=
  ⟨(Init_ok_iff sampleEnv sampleCommand ["model-a", "ctrl-b", "machine-3", "pw123", "nonce-xyz"]
      []).1.2 ⟨"model-a", "ctrl-b", "machine-3", "pw123", "nonce-xyz", ⟨"3"⟩, rfl, rfl⟩,
   (Init_ok_iff sampleEnv sampleCommand ["model-a", "ctrl-b", "machine-3", "pw123", "nonce-xyz"]
      []).2 "model-a" "ctrl-b" "machine-3" "pw123" "nonce-xyz" ⟨"3"⟩ rfl rfl⟩

/-! ## `getMigrationSpec` -/

/-- The two ways `modelUUID` can return a UUID or an error, read off the answer of
`ModelUUIDs`; in both the history grows by that one call. -/
theorem modelUUID_cases (env : Env) (c : extMigrateCommand) (h : History) :
    (∃ e, env.ModelUUIDs h [c.model] = .error e ∧
      modelUUID env c h = (.err (.Trace e), h ++ [⟨.ModelUUIDs [c.model], some e⟩])) ∨
    (env.ModelUUIDs h [c.model] = .ok [] ∧
      modelUUID env c h = (.runtimePanic "index out of range [0] with length 0",
        h ++ [⟨.ModelUUIDs [c.model], none⟩])) ∨
    (∃ u rest, env.ModelUUIDs h [c.model] = .ok (u :: rest) ∧
      modelUUID env c h = (.ok u, h ++ [⟨.ModelUUIDs [c.model], none⟩])) := by
  unfold modelUUID
  cases hm : env.ModelUUIDs h [c.model] with
  | error e => exact Or.inl ⟨e, rfl, by simp [errOf]⟩
  | ok l =>
    cases l with
    | nil => exact Or.inr (Or.inl ⟨rfl, by simp [errOf]⟩)
    | cons u rest => exact Or.inr (Or.inr ⟨u, rest, rfl, by simp [errOf]⟩)

/-- C5: when the model-UUID lookup, `ControllerByName` and `AccountDetails` for the target
controller succeed and the stored macaroon is empty or decodes, `getMigrationSpec` succeeds;
the spec has `ExternalControl = true`, the resolved model UUID, the target controller's UUID,
endpoints and CA certificate, and the account's user and password. -/
theorem getMigrationSpec_ok (env : Env) (c : extMigrateCommand) (h h1 : History) (u : String)
    (ci : ControllerDetails) (ai : AccountDetails) (mac : Macaroon)
    (hm : modelUUID env c h = (.ok u, h1))
    (hc : env.ControllerByName h1 c.targetController = .ok ci)
    (ha : env.AccountDetails (h1 ++ [⟨.ControllerByName c.targetController, none⟩])
      c.targetController = .ok ai)
    (hmac : ai.Macaroon ≠ "" → env.UnmarshalJSON ai.Macaroon = .ok mac) :
    getMigrationSpec env c h =
      (.ok { ExternalControl := true
             ModelUUID := u
             TargetControllerUUID := ci.ControllerUUID
             TargetAddrs := ci.APIEndpoints
             TargetCACert := ci.CACert
             TargetUser := ai.User
             TargetPassword := ai.Password
             TargetMacaroons := if ai.Macaroon = "" then [] else [[mac]] },
        h1 ++ [⟨.ControllerByName c.targetController, none⟩,
               ⟨.AccountDetails c.targetController, none⟩] ++
          if ai.Macaroon = "" then [] else [⟨.UnmarshalJSON ai.Macaroon, none⟩]) := by
  unfold getMigrationSpec
  rw [hm]
  simp only [hc, ha, errOf]
  by_cases hempty : ai.Macaroon = ""
  · simp [hempty]
  · simp [hempty, hmac hempty, errOf]

/-- Witness of C5: `model-a` resolves to `U1`, `ctrl-b` to addresses `h:1`, certificate `C`
and id `CTRLID`, the account is `u`/`p` without macaroon. -/
theorem getMigrationSpec_ok_witness :
    getMigrationSpec sampleEnv sampleReady [] =
      (.ok { ExternalControl := true, ModelUUID := "U1", TargetControllerUUID := "CTRLID",
             TargetAddrs := ["h:1"], TargetCACert := "C", TargetUser := "u",
             TargetPassword := "p", TargetMacaroons := [] },
        [⟨.ModelUUIDs ["model-a"], none⟩, ⟨.ControllerByName "ctrl-b", none⟩,
         ⟨.AccountDetails "ctrl-b", none⟩]) :=
  getMigrationSpec_ok sampleEnv sampleReady [] [⟨.ModelUUIDs ["model-a"], none⟩] "U1"
    ⟨"CTRLID", ["h:1"], "C"⟩ ⟨"u", "p", ""⟩ ⟨""⟩ rfl rfl rfl (fun hne => absurd rfl hne)

/-- C6: in the spec of a successful `getMigrationSpec`, with `ai` the account the store
returned: if `ai.Macaroon` is not empty, it was decoded and `TargetMacaroons` is the one slice
holding the one decoded macaroon; if it is empty, `TargetMacaroons` is empty and the history
ends with the `AccountDetails` call, without any `UnmarshalJSON` call. -/
theorem getMigrationSpec_macaroons (env : Env) (c : extMigrateCommand) (h h1 h2 : History)
    (spec : MigrationSpec) (u : String) (ci : ControllerDetails) (ai : AccountDetails)
    (hok : getMigrationSpec env c h = (.ok spec, h2))
    (hm : modelUUID env c h = (.ok u, h1))
    (hc : env.ControllerByName h1 c.targetController = .ok ci)
    (ha : env.AccountDetails (h1 ++ [⟨.ControllerByName c.targetController, none⟩])
      c.targetController = .ok ai) :
    (ai.Macaroon ≠ "" →
      ∃ mac, env.UnmarshalJSON ai.Macaroon = .ok mac ∧ spec.TargetMacaroons = [[mac]] ∧
        h2 = h1 ++ [⟨.ControllerByName c.targetController, none⟩,
                    ⟨.AccountDetails c.targetController, none⟩,
                    ⟨.UnmarshalJSON ai.Macaroon, none⟩]) ∧
    (ai.Macaroon = "" →
      spec.TargetMacaroons = [] ∧
        h2 = h1 ++ [⟨.ControllerByName c.targetController, none⟩,
                    ⟨.AccountDetails c.targetController, none⟩]) := by
  unfold getMigrationSpec at hok
  rw [hm] at hok
  simp only [hc, ha, errOf] at hok
  constructor
  · intro hne
    simp only [ne_eq, hne, not_false_eq_true, ↓reduceIte] at hok
    cases hu : env.UnmarshalJSON ai.Macaroon with
    | error e => simp [hu] at hok
    | ok mac =>
      simp only [hu, errOf, Prod.mk.injEq, Res.ok.injEq] at hok
      refine ⟨mac, rfl, ?_, ?_⟩
      · rw [← hok.1]
      · rw [← hok.2]; simp
  · intro hempty
    simp only [hempty, ne_eq, not_true_eq_false, ↓reduceIte, Prod.mk.injEq,
      Res.ok.injEq] at hok
    constructor
    · rw [← hok.1]
    · rw [← hok.2]; simp

/-- Witness of C6: an account with the macaroon text `m1` gives one slice with the one
macaroon decoded from `m1`. -/
theorem getMigrationSpec_macaroons_witness :
    ∃ mac, (sampleEnvWithMacaroon "m1").UnmarshalJSON "m1" = .ok mac ∧
      [[(⟨"m1"⟩ : Macaroon)]] = [[mac]] ∧
      [⟨.ModelUUIDs ["model-a"], none⟩, ⟨.ControllerByName "ctrl-b", none⟩,
        ⟨.AccountDetails "ctrl-b", none⟩, ⟨.UnmarshalJSON "m1", none⟩] =
      [(⟨.ModelUUIDs ["model-a"], none⟩ : Event)] ++
        [⟨.ControllerByName "ctrl-b", none⟩, ⟨.AccountDetails "ctrl-b", none⟩,
         ⟨.UnmarshalJSON "m1", none⟩] :=
  (getMigrationSpec_macaroons (sampleEnvWithMacaroon "m1") sampleReady []
    [⟨.ModelUUIDs ["model-a"], none⟩]
    [⟨.ModelUUIDs ["model-a"], none⟩, ⟨.ControllerByName "ctrl-b", none⟩,
      ⟨.AccountDetails "ctrl-b", none⟩, ⟨.UnmarshalJSON "m1", none⟩]
    { ExternalControl := true, ModelUUID := "U1", TargetControllerUUID := "CTRLID",
      TargetAddrs := ["h:1"], TargetCACert := "C", TargetUser := "u",
      TargetPassword := "p", TargetMacaroons := [[⟨"m1"⟩]] }
    "U1" ⟨"CTRLID", ["h:1"], "C"⟩ ⟨"u", "p", "m1"⟩ rfl rfl rfl rfl).1 (by decide)

/-! ## `Run`: failures -/

/-- The remote requests of a history extended by further events. -/
theorem remoteCalls_append (h k : History) :
    remoteCalls (h ++ k) = remoteCalls h ++ remoteCalls k := by
  simp [remoteCalls]

/-- The empty history holds no remote request. -/
theorem remoteCalls_nil : remoteCalls [] = [] := rfl

/-- The remote requests of a history, by its first event. -/
theorem remoteCalls_cons (ev : Event) (h : History) :
    remoteCalls (ev :: h) =
      match ev.call.remote with
      | some r => r :: remoteCalls h
      | none => remoteCalls h := by
  cases hr : ev.call.remote <;> simp [remoteCalls, List.filterMap_cons, hr]

/-- The method `modelUUID` makes no remote request. -/
theorem modelUUID_remoteCalls (env : Env) (c : extMigrateCommand) (h : History) :
    remoteCalls (modelUUID env c h).2 = remoteCalls h := by
  rcases modelUUID_cases env c h with ⟨e, _, hr⟩ | ⟨_, hr⟩ | ⟨u, rest, _, hr⟩ <;>
    simp [hr, remoteCalls_append, remoteCalls_cons, remoteCalls_nil, Call.remote]

/-- The method `getMigrationSpec` makes no remote request, whatever its outcome. -/
theorem getMigrationSpec_remoteCalls (env : Env) (c : extMigrateCommand) (h : History) :
    remoteCalls (getMigrationSpec env c h).2 = remoteCalls h := by
  have hmu := modelUUID_remoteCalls env c h
  unfold getMigrationSpec
  rcases hm : modelUUID env c h with ⟨r, h1⟩
  rw [hm] at hmu
  simp only at hmu
  cases r with
  | err e => simpa using hmu
  | runtimePanic m => simpa using hmu
  | ok u =>
    simp only
    cases hc : env.ControllerByName h1 c.targetController with
    | error e => simp [remoteCalls_append, remoteCalls_cons, remoteCalls_nil, hmu, Call.remote]
    | ok ci =>
      simp only [errOf]
      cases ha : env.AccountDetails (h1 ++ [⟨.ControllerByName c.targetController, none⟩])
          c.targetController with
      | error e => simp [remoteCalls_append, remoteCalls_cons, remoteCalls_nil, hmu, Call.remote]
      | ok ai =>
        simp only [errOf]
        by_cases hempty : ai.Macaroon = ""
        · simp [hempty, remoteCalls_append, remoteCalls_cons, remoteCalls_nil, hmu, Call.remote]
        · cases hu : env.UnmarshalJSON ai.Macaroon <;>
            simp [hempty, hu, errOf, remoteCalls_append, remoteCalls_cons, remoteCalls_nil, hmu, Call.remote]

/-- C7: a failing store lookup stops `getMigrationSpec` and `Run` at that lookup. If the
model-UUID lookup fails, its error is returned by both and the history holds the
`ModelUUIDs` call only; if `ControllerByName` of the target controller fails, its error is
returned and `AccountDetails` is not asked; if `AccountDetails` fails, its error is returned.
In the three cases `Run` returns with the history of `getMigrationSpec`, which holds no
remote request beyond those of the initial history: `InitiateMigration` is not called. -/
theorem lookup_failure (env : Env) (c : extMigrateCommand) (h : History) :
    (∀ e h1, modelUUID env c h = (.err e, h1) →
      getMigrationSpec env c h = (.err e, h1) ∧ Run env c h = (.err e, h1) ∧
      (∃ e0, env.ModelUUIDs h [c.model] = .error e0 ∧ e = .Trace e0 ∧
        h1 = h ++ [⟨.ModelUUIDs [c.model], some e0⟩]) ∧
      remoteCalls (Run env c h).2 = remoteCalls h) ∧
    (∀ u h1 e, modelUUID env c h = (.ok u, h1) →
      env.ControllerByName h1 c.targetController = .error e →
      getMigrationSpec env c h =
        (.err e, h1 ++ [⟨.ControllerByName c.targetController, some e⟩]) ∧
      Run env c h = (.err e, h1 ++ [⟨.ControllerByName c.targetController, some e⟩]) ∧
      remoteCalls (Run env c h).2 = remoteCalls h) ∧
    (∀ u h1 ci e, modelUUID env c h = (.ok u, h1) →
      env.ControllerByName h1 c.targetController = .ok ci →
      env.AccountDetails (h1 ++ [⟨.ControllerByName c.targetController, none⟩])
        c.targetController = .error e →
      getMigrationSpec env c h =
        (.err e, h1 ++ [⟨.ControllerByName c.targetController, none⟩,
                        ⟨.AccountDetails c.targetController, some e⟩]) ∧
      Run env c h =
        (.err e, h1 ++ [⟨.ControllerByName c.targetController, none⟩,
                        ⟨.AccountDetails c.targetController, some e⟩]) ∧
      remoteCalls (Run env c h).2 = remoteCalls h) := by
  have key : ∀ e h', getMigrationSpec env c h = (.err e, h') →
      Run env c h = (.err e, h') ∧ remoteCalls (Run env c h).2 = remoteCalls h := by
    intro e h' hg
    have hr : Run env c h = (.err e, h') := by unfold Run; rw [hg]
    refine ⟨hr, ?_⟩
    have := getMigrationSpec_remoteCalls env c h
    rw [hg] at this
    rw [hr]; exact this
  refine ⟨?_, ?_, ?_⟩
  · intro e h1 hm
    have hg : getMigrationSpec env c h = (.err e, h1) := by
      unfold getMigrationSpec; rw [hm]
    refine ⟨hg, (key e h1 hg).1, ?_, (key e h1 hg).2⟩
    rcases modelUUID_cases env c h with ⟨e0, he0, hr⟩ | ⟨_, hr⟩ | ⟨u, rest, _, hr⟩
    · rw [hr] at hm
      have hinj := Prod.mk.inj hm
      exact ⟨e0, he0, (Res.err.inj hinj.1).symm, hinj.2.symm⟩
    · rw [hr] at hm; simp at hm
    · rw [hr] at hm; simp at hm
  · intro u h1 e hm hc
    have hg : getMigrationSpec env c h =
        (.err e, h1 ++ [⟨.ControllerByName c.targetController, some e⟩]) := by
      unfold getMigrationSpec; rw [hm]; simp only [hc, errOf]
    exact ⟨hg, key _ _ hg⟩
  · intro u h1 ci e hm hc ha
    have hg : getMigrationSpec env c h =
        (.err e, h1 ++ [⟨.ControllerByName c.targetController, none⟩,
                        ⟨.AccountDetails c.targetController, some e⟩]) := by
      unfold getMigrationSpec; rw [hm]; simp [hc, ha, errOf]
    exact ⟨hg, key _ _ hg⟩

/-- Witness of C7: the store has no entry for `target-controller-name`; `Run` returns the
store's error after the two lookups and makes no remote request. -/
theorem lookup_failure_witness :
    getMigrationSpec sampleEnv sampleUnknownTarget [] =
      (.err (.New "controller not found"),
        [⟨.ModelUUIDs ["model-a"], none⟩,
         ⟨.ControllerByName "target-controller-name", some (.New "controller not found")⟩]) ∧
    Run sampleEnv sampleUnknownTarget [] =
      (.err (.New "controller not found"),
        [⟨.ModelUUIDs ["model-a"], none⟩,
         ⟨.ControllerByName "target-controller-name", some (.New "controller not found")⟩]) ∧
    remoteCalls (Run sampleEnv sampleUnknownTarget []).2 = remoteCalls [] :=
  (lookup_failure sampleEnv sampleUnknownTarget []).2.1 "U1" [⟨.ModelUUIDs ["model-a"], none⟩]
    (.New "controller not found") rfl rfl

/-- C8: when the spec is built and `InitiateMigration` returns the error `e`, `Run` returns
`e` and its history ends with that call: nothing of `connectMigrationMaster` (which starts
with a store lookup and ends with `api.Open`) and no `SetPhase` follows, and the only remote
request made is the migration request. -/
theorem Run_initiate_failure (env : Env) (c : extMigrateCommand) (h h1 : History)
    (spec : MigrationSpec) (api : APIClient) (e : GoError)
    (hspec : getMigrationSpec env c h = (.ok spec, h1))
    (hapi : env.NewControllerAPIClient h1 = .ok api)
    (hinit : env.InitiateMigration (h1 ++ [⟨.NewControllerAPIClient, none⟩]) api spec
      = .error e) :
    Run env c h =
      (.err e, h1 ++ [⟨.NewControllerAPIClient, none⟩, ⟨.InitiateMigration api spec, some e⟩]) ∧
    remoteCalls (Run env c h).2 = remoteCalls h ++ [.InitiateMigration spec] := by
  have hr : Run env c h =
      (.err e, h1 ++ [⟨.NewControllerAPIClient, none⟩,
        ⟨.InitiateMigration api spec, some e⟩]) := by
    unfold Run
    rw [hspec]
    simp [hapi, hinit, errOf]
  refine ⟨hr, ?_⟩
  have hrc := getMigrationSpec_remoteCalls env c h
  rw [hspec] at hrc
  simp only at hrc
  rw [hr]
  simp [remoteCalls_append, remoteCalls_cons, remoteCalls_nil, Call.remote, hrc]

/-- Witness of C8: the target controller refuses the migration. -/
theorem Run_initiate_failure_witness :
    Run sampleEnvInitiateFails sampleReady [] =
      (.err (.New "migration refused"),
        [⟨.ModelUUIDs ["model-a"], none⟩, ⟨.ControllerByName "ctrl-b", none⟩,
         ⟨.AccountDetails "ctrl-b", none⟩] ++
        [⟨.NewControllerAPIClient, none⟩,
         ⟨.InitiateMigration ⟨1⟩ sampleSpec, some (.New "migration refused")⟩]) ∧
    remoteCalls (Run sampleEnvInitiateFails sampleReady []).2 =
      remoteCalls [] ++ [.InitiateMigration sampleSpec] :=
  Run_initiate_failure sampleEnvInitiateFails sampleReady []
    [⟨.ModelUUIDs ["model-a"], none⟩, ⟨.ControllerByName "ctrl-b", none⟩,
      ⟨.AccountDetails "ctrl-b", none⟩]
    sampleSpec ⟨1⟩ (.New "migration refused") rfl rfl rfl

/-- A successful `connectMigrationMaster` made exactly one remote request, the connection. -/
theorem connectMigrationMaster_ok_remoteCalls (env : Env) (c : extMigrateCommand)
    (h h' : History) (client : MigrationMasterClient)
    (hconn : connectMigrationMaster env c h = (.ok client, h')) :
    remoteCalls h' = remoteCalls h ++ [.Connect] := by
  unfold connectMigrationMaster at hconn
  cases hc : env.ControllerByName h c.base.controllerName with
  | error e => simp [hc] at hconn
  | ok ci =>
    simp only [hc, errOf] at hconn
    have hmu := modelUUID_remoteCalls env c (h ++ [⟨.ControllerByName c.base.controllerName, none⟩])
    rcases hm : modelUUID env c (h ++ [⟨.ControllerByName c.base.controllerName, none⟩])
      with ⟨r, h1⟩
    rw [hm] at hconn hmu
    cases r with
    | err e => simp at hconn
    | runtimePanic m => simp at hconn
    | ok u =>
      simp only at hconn hmu
      cases ho : env.Open h1 ⟨ci.APIEndpoints, ci.CACert, ⟨u⟩, c.machineTag, c.machinePassword,
          c.machineNonce⟩ with
      | error e => simp [ho] at hconn
      | ok conn =>
        simp only [ho, errOf, Prod.mk.injEq, Res.ok.injEq] at hconn
        rw [← hconn.2]
        simp [remoteCalls_append, remoteCalls_cons, remoteCalls_nil, Call.remote, hmu]

/-- C9: when the migration is initiated, the migration master is connected and
`SetPhase(ABORT)` returns the error `e`, `Run` returns `e` and its history ends with that
call; the remote requests made are the migration request, the connection and the one phase
request ABORT: `SetPhase(ABORTDONE)` is not called. -/
theorem Run_abort_failure (env : Env) (c : extMigrateCommand) (h h1 h2 : History)
    (spec : MigrationSpec) (api : APIClient) (id : String) (client : MigrationMasterClient)
    (e : GoError)
    (hspec : getMigrationSpec env c h = (.ok spec, h1))
    (hapi : env.NewControllerAPIClient h1 = .ok api)
    (hinit : env.InitiateMigration (h1 ++ [⟨.NewControllerAPIClient, none⟩]) api spec = .ok id)
    (hconn : connectMigrationMaster env c
      (h1 ++ [⟨.NewControllerAPIClient, none⟩, ⟨.InitiateMigration api spec, none⟩,
              ⟨.Infof "Migration started with ID %q" [id], none⟩,
              ⟨.Sleep (5 * Second), none⟩]) = (.ok client, h2))
    (habort : env.SetPhase (h2 ++ [⟨.Infof "Set phase to ABORT" [], none⟩]) client .ABORT
      = some e) :
    Run env c h =
      (.err e, h2 ++ [⟨.Infof "Set phase to ABORT" [], none⟩,
                      ⟨.SetPhase client .ABORT, some e⟩]) ∧
    remoteCalls (Run env c h).2 =
      remoteCalls h ++ [.InitiateMigration spec, .Connect, .SetPhase .ABORT] := by
  have hr : Run env c h =
      (.err e, h2 ++ [⟨.Infof "Set phase to ABORT" [], none⟩,
                      ⟨.SetPhase client .ABORT, some e⟩]) := by
    unfold Run
    rw [hspec]
    simp only [hapi, hinit, errOf, List.append_assoc, List.cons_append, List.nil_append]
    rw [hconn]
    simp [habort]
  refine ⟨hr, ?_⟩
  have hrc := getMigrationSpec_remoteCalls env c h
  rw [hspec] at hrc
  simp only at hrc
  have hcc := connectMigrationMaster_ok_remoteCalls env c _ _ _ hconn
  rw [hr]
  simp [remoteCalls_append, remoteCalls_cons, remoteCalls_nil, Call.remote, hrc, hcc]

/-- Witness of C9: the migration master refuses the phase ABORT. -/
theorem Run_abort_failure_witness :
    Run sampleEnvAbortFails sampleReady [] =
      (.err (.New "phase rejected"),
        [⟨.ModelUUIDs ["model-a"], none⟩, ⟨.ControllerByName "ctrl-b", none⟩,
         ⟨.AccountDetails "ctrl-b", none⟩, ⟨.NewControllerAPIClient, none⟩,
         ⟨.InitiateMigration ⟨1⟩ sampleSpec, none⟩,
         ⟨.Infof "Migration started with ID %q" ["migration-1"], none⟩,
         ⟨.Sleep (5 * Second), none⟩,
         ⟨.ControllerByName "ctrl-a", none⟩, ⟨.ModelUUIDs ["model-a"], none⟩,
         ⟨.Open ⟨["s:1"], "S", ⟨"U1"⟩, ⟨"3"⟩, "pw123", "nonce-xyz"⟩, none⟩] ++
        [⟨.Infof "Set phase to ABORT" [], none⟩,
         ⟨.SetPhase ⟨⟨2⟩⟩ .ABORT, some (.New "phase rejected")⟩]) ∧
    remoteCalls (Run sampleEnvAbortFails sampleReady []).2 =
      remoteCalls [] ++ [.InitiateMigration sampleSpec, .Connect, .SetPhase .ABORT] :=
  Run_abort_failure sampleEnvAbortFails sampleReady []
    [⟨.ModelUUIDs ["model-a"], none⟩, ⟨.ControllerByName "ctrl-b", none⟩,
      ⟨.AccountDetails "ctrl-b", none⟩]
    [⟨.ModelUUIDs ["model-a"], none⟩, ⟨.ControllerByName "ctrl-b", none⟩,
      ⟨.AccountDetails "ctrl-b", none⟩, ⟨.NewControllerAPIClient, none⟩,
      ⟨.InitiateMigration ⟨1⟩ sampleSpec, none⟩,
      ⟨.Infof "Migration started with ID %q" ["migration-1"], none⟩,
      ⟨.Sleep (5 * Second), none⟩,
      ⟨.ControllerByName "ctrl-a", none⟩, ⟨.ModelUUIDs ["model-a"], none⟩,
      ⟨.Open ⟨["s:1"], "S", ⟨"U1"⟩, ⟨"3"⟩, "pw123", "nonce-xyz"⟩, none⟩]
    sampleSpec ⟨1⟩ "migration-1" ⟨⟨2⟩⟩ (.New "phase rejected") rfl rfl rfl rfl rfl

/-! ## `Run`: the sequence of calls -/

/-- The empty history has no failed call. -/
theorem allSucceeded_nil : allSucceeded [] = true := rfl

/-- Success of all calls, by the first call. -/
theorem allSucceeded_cons (ev : Event) (k : History) :
    allSucceeded (ev :: k) = (ev.err.isNone && allSucceeded k) := by
  simp [allSucceeded]

/-- Success of all calls of two histories put end to end. -/
theorem allSucceeded_append (a b : History) :
    allSucceeded (a ++ b) = (allSucceeded a && allSucceeded b) := by
  simp [allSucceeded]

/-- Ending with a failure, by the first call of a history of two calls or more. -/
theorem endsWithFailure_cons (ev : Event) (k : History) (hk : k ≠ []) :
    endsWithFailure (ev :: k) = (ev.err.isNone && endsWithFailure k) := by
  cases k with
  | nil => exact absurd rfl hk
  | cons x k => rfl

/-- Successful calls in front do not change whether a history ends with a failure. -/
theorem endsWithFailure_append (a b : History) (ha : allSucceeded a = true) :
    endsWithFailure (a ++ b) = endsWithFailure b := by
  induction a with
  | nil => rfl
  | cons ev a ih =>
    have hev : ev.err.isNone = true ∧ allSucceeded a = true := by
      simpa [allSucceeded] using ha
    cases hab : a ++ b with
    | nil =>
      have hb : b = [] := (List.append_eq_nil.mp hab).2
      have ha' : a = [] := (List.append_eq_nil.mp hab).1
      subst hb ha'
      cases he : ev.err <;> simp_all [endsWithFailure]
    | cons x l =>
      rw [List.cons_append, hab, endsWithFailure_cons ev (x :: l) (by simp), ← hab, ih hev.2,
        hev.1, Bool.true_and]

/-- Ending with a failure, spelled out: successful calls, then one failing call. -/
theorem endsWithFailure_iff (k : History) :
    endsWithFailure k = true ↔
      ∃ pre ev, k = pre ++ [ev] ∧ allSucceeded pre = true ∧ ev.err ≠ none := by
  constructor
  · intro hk
    induction k with
    | nil => simp [endsWithFailure] at hk
    | cons x k ih =>
      cases k with
      | nil =>
        refine ⟨[], x, rfl, rfl, ?_⟩
        cases hx : x.err <;> simp_all [endsWithFailure]
      | cons y k =>
        rw [endsWithFailure_cons x (y :: k) (by simp)] at hk
        simp only [Bool.and_eq_true] at hk
        obtain ⟨pre, ev, hpre, hall, hev⟩ := ih hk.2
        refine ⟨x :: pre, ev, by rw [hpre]; rfl, ?_, hev⟩
        simp only [allSucceeded, List.all_cons, Bool.and_eq_true]
        exact ⟨hk.1, hall⟩
  · rintro ⟨pre, ev, rfl, hall, hev⟩
    rw [endsWithFailure_append pre [ev] hall]
    cases hx : ev.err with
    | none => exact absurd hx hev
    | some e => simp [endsWithFailure, hx]

/-- The calls of `modelUUID`: appended to the history, no remote request, stopping right. -/
theorem modelUUID_shape (env : Env) (c : extMigrateCommand) (h : History) :
    ∃ k, (modelUUID env c h).2 = h ++ k ∧ remoteCalls k = [] ∧
      stopsRight (modelUUID env c h).1 k = true := by
  rcases modelUUID_cases env c h with ⟨e, _, hr⟩ | ⟨_, hr⟩ | ⟨u, rest, _, hr⟩ <;>
    exact ⟨_, by rw [hr], by simp [remoteCalls_cons, remoteCalls_nil, Call.remote],
      by simp [hr, stopsRight, endsWithFailure, allSucceeded]⟩

/-- The calls of `getMigrationSpec`: appended to the history, no remote request, stopping
right. -/
theorem getMigrationSpec_shape (env : Env) (c : extMigrateCommand) (h : History) :
    ∃ k, (getMigrationSpec env c h).2 = h ++ k ∧ remoteCalls k = [] ∧
      stopsRight (getMigrationSpec env c h).1 k = true := by
  obtain ⟨k1, hk1, hrc1, hs1⟩ := modelUUID_shape env c h
  unfold getMigrationSpec
  rcases hm : modelUUID env c h with ⟨r, h1⟩
  rw [hm] at hk1 hs1
  simp only at hk1 hs1
  subst hk1
  cases r with
  | err e => exact ⟨k1, rfl, hrc1, hs1⟩
  | runtimePanic m => exact ⟨k1, rfl, hrc1, hs1⟩
  | ok u =>
    have hall : allSucceeded k1 = true := hs1
    simp only
    cases hc : env.ControllerByName (h ++ k1) c.targetController with
    | error e =>
      exact ⟨k1 ++ [⟨.ControllerByName c.targetController, some e⟩],
        by simp [errOf],
        by simp [remoteCalls_append, remoteCalls_cons, remoteCalls_nil, Call.remote, hrc1],
        by simp [stopsRight, endsWithFailure_append _ _ hall, endsWithFailure]⟩
    | ok ci =>
      simp only [errOf]
      cases ha : env.AccountDetails (h ++ k1 ++ [⟨.ControllerByName c.targetController, none⟩])
          c.targetController with
      | error e =>
        exact ⟨k1 ++ [⟨.ControllerByName c.targetController, none⟩,
            ⟨.AccountDetails c.targetController, some e⟩],
          by simp [errOf],
          by simp [remoteCalls_append, remoteCalls_cons, remoteCalls_nil, Call.remote, hrc1],
          by
            rw [show k1 ++ [⟨.ControllerByName c.targetController, none⟩,
                ⟨.AccountDetails c.targetController, some e⟩] =
              (k1 ++ [⟨.ControllerByName c.targetController, none⟩]) ++
                [⟨.AccountDetails c.targetController, some e⟩] by simp]
            simp only [stopsRight]
            rw [endsWithFailure_append _ _ (by simp [allSucceeded_append, hall, allSucceeded_cons, allSucceeded_nil])]
            rfl⟩
      | ok ai =>
        simp only [errOf]
        by_cases hempty : ai.Macaroon = ""
        · exact ⟨k1 ++ [⟨.ControllerByName c.targetController, none⟩,
              ⟨.AccountDetails c.targetController, none⟩],
            by simp [hempty],
            by simp [remoteCalls_append, remoteCalls_cons, remoteCalls_nil, Call.remote, hrc1],
            by simp [hempty, stopsRight, allSucceeded_append, hall, allSucceeded_cons, allSucceeded_nil]⟩
        · cases hu : env.UnmarshalJSON ai.Macaroon with
          | error e =>
            exact ⟨k1 ++ [⟨.ControllerByName c.targetController, none⟩,
                ⟨.AccountDetails c.targetController, none⟩,
                ⟨.UnmarshalJSON ai.Macaroon, some e⟩],
              by simp [hempty, hu, errOf],
              by simp [remoteCalls_append, remoteCalls_cons, remoteCalls_nil, Call.remote, hrc1],
              by
                rw [show k1 ++ [⟨.ControllerByName c.targetController, none⟩,
                    ⟨.AccountDetails c.targetController, none⟩,
                    ⟨.UnmarshalJSON ai.Macaroon, some e⟩] =
                  (k1 ++ [⟨.ControllerByName c.targetController, none⟩,
                    ⟨.AccountDetails c.targetController, none⟩]) ++
                    [⟨.UnmarshalJSON ai.Macaroon, some e⟩] by simp]
                simp only [hempty, hu, ne_eq, not_false_eq_true, ↓reduceIte, stopsRight]
                rw [endsWithFailure_append _ _
                  (by simp [allSucceeded_append, hall, allSucceeded_cons, allSucceeded_nil])]
                rfl⟩
          | ok mac =>
            exact ⟨k1 ++ [⟨.ControllerByName c.targetController, none⟩,
                ⟨.AccountDetails c.targetController, none⟩,
                ⟨.UnmarshalJSON ai.Macaroon, none⟩],
              by simp [hempty, hu, errOf],
              by simp [remoteCalls_append, remoteCalls_cons, remoteCalls_nil, Call.remote, hrc1],
              by simp [hempty, hu, stopsRight, allSucceeded_append, hall, allSucceeded_cons, allSucceeded_nil]⟩

/-- The calls of `connectMigrationMaster`: appended to the history, stopping right; the one
remote request it can make is the connection, made whenever it succeeds. -/
theorem connectMigrationMaster_shape (env : Env) (c : extMigrateCommand) (h : History) :
    ∃ k, (connectMigrationMaster env c h).2 = h ++ k ∧
      (remoteCalls k = [] ∨ remoteCalls k = [.Connect]) ∧
      (∀ client, (connectMigrationMaster env c h).1 = .ok client → remoteCalls k = [.Connect]) ∧
      stopsRight (connectMigrationMaster env c h).1 k = true := by
  unfold connectMigrationMaster
  cases hc : env.ControllerByName h c.base.controllerName with
  | error e =>
    exact ⟨[⟨.ControllerByName c.base.controllerName, some e⟩], by simp [errOf],
      Or.inl (by simp [remoteCalls_cons, remoteCalls_nil, Call.remote]),
      by simp, by simp [stopsRight, endsWithFailure]⟩
  | ok ci =>
    simp only [errOf]
    obtain ⟨k1, hk1, hrc1, hs1⟩ :=
      modelUUID_shape env c (h ++ [⟨.ControllerByName c.base.controllerName, none⟩])
    rcases hm : modelUUID env c (h ++ [⟨.ControllerByName c.base.controllerName, none⟩])
      with ⟨r, h1⟩
    rw [hm] at hk1 hs1
    simp only at hk1 hs1
    subst hk1
    rw [hm]
    have hpre : ∀ b : History, endsWithFailure
        ((⟨.ControllerByName c.base.controllerName, none⟩ : Event) :: b) = endsWithFailure b :=
      fun b => endsWithFailure_append [⟨.ControllerByName c.base.controllerName, none⟩] b
        (by simp [allSucceeded_cons, allSucceeded_nil])
    cases r with
    | err e =>
      exact ⟨[⟨.ControllerByName c.base.controllerName, none⟩] ++ k1, by simp,
        Or.inl (by simp [remoteCalls_append, remoteCalls_cons, remoteCalls_nil, Call.remote,
          hrc1]),
        by simp, by simpa [stopsRight, hpre] using hs1⟩
    | runtimePanic m =>
      exact ⟨[⟨.ControllerByName c.base.controllerName, none⟩] ++ k1, by simp,
        Or.inl (by simp [remoteCalls_append, remoteCalls_cons, remoteCalls_nil, Call.remote,
          hrc1]),
        by simp, by simpa [stopsRight, allSucceeded_append, allSucceeded_cons, allSucceeded_nil] using hs1⟩
    | ok u =>
      have hall : allSucceeded k1 = true := hs1
      have hall2 : allSucceeded
          (([⟨.ControllerByName c.base.controllerName, none⟩] : History) ++ k1) = true := by
        simp [allSucceeded_append, hall, allSucceeded_cons, allSucceeded_nil]
      simp only
      cases ho : env.Open (h ++ [⟨.ControllerByName c.base.controllerName, none⟩] ++ k1)
          ⟨ci.APIEndpoints, ci.CACert, ⟨u⟩, c.machineTag, c.machinePassword, c.machineNonce⟩ with
      | error e =>
        exact ⟨([⟨.ControllerByName c.base.controllerName, none⟩] ++ k1) ++
            [⟨.Open ⟨ci.APIEndpoints, ci.CACert, ⟨u⟩, c.machineTag, c.machinePassword,
              c.machineNonce⟩, some e⟩],
          by simp [errOf],
          Or.inr (by simp [remoteCalls_append, remoteCalls_cons, remoteCalls_nil, Call.remote,
            hrc1]),
          by simp,
          by
            simp only [stopsRight]
            rw [endsWithFailure_append _ _ hall2]
            rfl⟩
      | ok conn =>
        exact ⟨([⟨.ControllerByName c.base.controllerName, none⟩] ++ k1) ++
            [⟨.Open ⟨ci.APIEndpoints, ci.CACert, ⟨u⟩, c.machineTag, c.machinePassword,
              c.machineNonce⟩, none⟩],
          by simp [errOf],
          Or.inr (by simp [remoteCalls_append, remoteCalls_cons, remoteCalls_nil, Call.remote,
            hrc1]),
          by simp [remoteCalls_append, remoteCalls_cons, remoteCalls_nil, Call.remote, hrc1],
          by
            simp only [stopsRight]
            rw [allSucceeded_append, hall2]
            rfl⟩

/-- The calls of `Run`: appended to the history, stopping right; its remote requests begin the
sequence migration request, connection, ABORT, ABORTDONE and are the whole sequence when `Run`
returns nil; without a spec there is none and `Run` does not return nil. -/
theorem Run_shape (env : Env) (c : extMigrateCommand) (h : History) :
    ∃ k, (Run env c h).2 = h ++ k ∧ stopsRight (Run env c h).1 k = true ∧
      match getMigrationSpec env c h with
      | (.ok spec, _) =>
        remoteCalls k <+:
          [.InitiateMigration spec, .Connect, .SetPhase .ABORT, .SetPhase .ABORTDONE] ∧
        ((Run env c h).1 = .ok () → remoteCalls k =
          [.InitiateMigration spec, .Connect, .SetPhase .ABORT, .SetPhase .ABORTDONE])
      | _ => remoteCalls k = [] ∧ (Run env c h).1 ≠ .ok () := by
  obtain ⟨k1, hk1, hrc1, hs1⟩ := getMigrationSpec_shape env c h
  unfold Run
  rcases hg : getMigrationSpec env c h with ⟨r, h1⟩
  rw [hg] at hk1 hs1
  simp only at hk1 hs1
  subst hk1
  cases r with
  | err e => exact ⟨k1, rfl, hs1, hrc1, by simp⟩
  | runtimePanic m => exact ⟨k1, rfl, hs1, hrc1, by simp⟩
  | ok spec =>
    have hall : allSucceeded k1 = true := hs1
    simp only
    cases hapi : env.NewControllerAPIClient (h ++ k1) with
    | error e =>
      refine ⟨k1 ++ [⟨.NewControllerAPIClient, some e⟩], by simp [errOf], ?_, ?_, by simp⟩
      · simp only [stopsRight]
        rw [endsWithFailure_append _ _ hall]
        rfl
      · simp [remoteCalls_append, remoteCalls_cons, remoteCalls_nil, Call.remote, hrc1]
    | ok api =>
      simp only [errOf]
      cases hinit : env.InitiateMigration (h ++ k1 ++ [⟨.NewControllerAPIClient, none⟩]) api
          spec with
      | error e =>
        refine ⟨(k1 ++ [⟨.NewControllerAPIClient, none⟩]) ++
          [⟨.InitiateMigration api spec, some e⟩], by simp [errOf], ?_, ?_, by simp⟩
        · simp only [stopsRight]
          rw [endsWithFailure_append _ _
            (by simp [allSucceeded_append, hall, allSucceeded_cons, allSucceeded_nil])]
          rfl
        · simp [remoteCalls_append, remoteCalls_cons, remoteCalls_nil, Call.remote, hrc1]
      | ok id =>
        simp only [errOf]
        -- the history up to the connection
        have hall2 : allSucceeded (k1 ++ [⟨.NewControllerAPIClient, none⟩,
            ⟨.InitiateMigration api spec, none⟩,
            ⟨.Infof "Migration started with ID %q" [id], none⟩,
            ⟨.Sleep (5 * Second), none⟩]) = true := by
          simp [allSucceeded_append, hall, allSucceeded_cons, allSucceeded_nil]
        have hrc2 : remoteCalls (k1 ++ [⟨.NewControllerAPIClient, none⟩,
            ⟨.InitiateMigration api spec, none⟩,
            ⟨.Infof "Migration started with ID %q" [id], none⟩,
            ⟨.Sleep (5 * Second), none⟩]) = [.InitiateMigration spec] := by
          simp [remoteCalls_append, remoteCalls_cons, remoteCalls_nil, Call.remote, hrc1]
        have hh : h ++ k1 ++ [⟨.NewControllerAPIClient, none⟩] ++
            [⟨.InitiateMigration api spec, none⟩] ++
            [⟨.Infof "Migration started with ID %q" [id], none⟩] ++
            [⟨.Sleep (5 * Second), none⟩] =
            h ++ (k1 ++ [⟨.NewControllerAPIClient, none⟩,
              ⟨.InitiateMigration api spec, none⟩,
              ⟨.Infof "Migration started with ID %q" [id], none⟩,
              ⟨.Sleep (5 * Second), none⟩]) := by simp
        rw [hh]
        generalize k1 ++ [⟨.NewControllerAPIClient, none⟩,
            ⟨.InitiateMigration api spec, none⟩,
            ⟨.Infof "Migration started with ID %q" [id], none⟩,
            ⟨.Sleep (5 * Second), none⟩] = k2 at hall2 hrc2
        obtain ⟨k3, hk3, hrc3, hrc3ok, hs3⟩ := connectMigrationMaster_shape env c (h ++ k2)
        rcases hconn : connectMigrationMaster env c (h ++ k2) with ⟨r, h3⟩
        rw [hconn] at hk3 hs3 hrc3ok
        simp only at hk3 hs3 hrc3ok
        subst hk3
        have hpre : remoteCalls (k2 ++ k3) <+:
            [.InitiateMigration spec, .Connect, .SetPhase .ABORT, .SetPhase .ABORTDONE] := by
          rw [remoteCalls_append, hrc2]
          rcases hrc3 with h0 | h0 <;> rw [h0] <;> simp
        cases r with
        | err e =>
          refine ⟨k2 ++ k3, by simp, ?_, hpre, by simp⟩
          simp only [stopsRight] at hs3 ⊢
          rw [endsWithFailure_append _ _ hall2]
          exact hs3
        | runtimePanic m =>
          refine ⟨k2 ++ k3, by simp, ?_, hpre, by simp⟩
          simp only [stopsRight] at hs3 ⊢
          rw [allSucceeded_append, hall2, hs3]
          rfl
        | ok masterClient =>
          have hall3 : allSucceeded (k2 ++ k3) = true := by
            simp only [stopsRight] at hs3
            rw [allSucceeded_append, hall2, hs3]
            rfl
          have hrc4 : remoteCalls (k2 ++ k3) = [.InitiateMigration spec, .Connect] := by
            rw [remoteCalls_append, hrc2, hrc3ok masterClient rfl]
            rfl
          have hh3 : h ++ k2 ++ k3 = h ++ (k2 ++ k3) := by simp
          rw [hh3]
          generalize k2 ++ k3 = k4 at hall3 hrc4
          simp only
          cases hab : env.SetPhase (h ++ k4 ++ [⟨.Infof "Set phase to ABORT" [], none⟩])
              masterClient .ABORT with
          | some e =>
            refine ⟨(k4 ++ [⟨.Infof "Set phase to ABORT" [], none⟩]) ++
              [⟨.SetPhase masterClient .ABORT, some e⟩], by simp, ?_, ?_, by simp⟩
            · simp only [stopsRight]
              rw [endsWithFailure_append _ _
                (by simp [allSucceeded_append, hall3, allSucceeded_cons, allSucceeded_nil])]
              rfl
            · simp [remoteCalls_append, remoteCalls_cons, remoteCalls_nil, Call.remote, hrc4]
          | none =>
            simp only
            cases habd : env.SetPhase (h ++ k4 ++ [⟨.Infof "Set phase to ABORT" [], none⟩] ++
                [⟨.SetPhase masterClient .ABORT, none⟩] ++
                [⟨.Infof "Set phase to ABORTDONE" [], none⟩]) masterClient .ABORTDONE with
            | some e =>
              refine ⟨(k4 ++ [⟨.Infof "Set phase to ABORT" [], none⟩,
                ⟨.SetPhase masterClient .ABORT, none⟩,
                ⟨.Infof "Set phase to ABORTDONE" [], none⟩]) ++
                [⟨.SetPhase masterClient .ABORTDONE, some e⟩], by simp, ?_, ?_, by simp⟩
              · simp only [stopsRight]
                rw [endsWithFailure_append _ _
                  (by simp [allSucceeded_append, hall3, allSucceeded_cons, allSucceeded_nil])]
                rfl
              · simp [remoteCalls_append, remoteCalls_cons, remoteCalls_nil, Call.remote, hrc4]
            | none =>
              refine ⟨k4 ++ [⟨.Infof "Set phase to ABORT" [], none⟩,
                ⟨.SetPhase masterClient .ABORT, none⟩,
                ⟨.Infof "Set phase to ABORTDONE" [], none⟩,
                ⟨.SetPhase masterClient .ABORTDONE, none⟩], by simp, ?_, ?_, ?_⟩
              · simp [stopsRight, allSucceeded_append, hall3, allSucceeded_cons,
                  allSucceeded_nil]
              · simp [remoteCalls_append, remoteCalls_cons, remoteCalls_nil, Call.remote, hrc4]
              · intro _
                simp [remoteCalls_append, remoteCalls_cons, remoteCalls_nil, Call.remote, hrc4]

/-- Events recorded one after the other are answered when each part is. -/
theorem answered_append (env : Env) (h a b : History) :
    answered env h (a ++ b) = (answered env h a && answered env (h ++ a) b) := by
  induction a generalizing h with
  | nil => simp [answered]
  | cons ev a ih =>
    rw [List.cons_append]
    simp only [answered]
    rw [ih (h ++ [ev])]
    simp [Bool.and_assoc]

/-- Answered events, spelled out: every event carries the collaborators' outcome for its call
after the events before it. -/
theorem answered_spec (env : Env) (h k : History) (hk : answered env h k = true) :
    ∀ pre ev post, k = pre ++ ev :: post → ev.err = env.outcome (h ++ pre) ev.call := by
  induction k generalizing h with
  | nil =>
    intro pre ev post hsplit
    exact absurd hsplit (by simp)
  | cons x k ih =>
    simp only [answered, Bool.and_eq_true, decide_eq_true_eq] at hk
    intro pre ev post hsplit
    cases pre with
    | nil =>
      simp only [List.nil_append, List.cons.injEq] at hsplit
      rw [← hsplit.1, List.append_nil]
      exact hk.1
    | cons p pre =>
      simp only [List.cons_append, List.cons.injEq] at hsplit
      have := ih (h ++ [x]) hk.2 pre ev post hsplit.2
      rw [this, hsplit.1]
      simp

/-- The calls of `modelUUID` carry the answers of the collaborators; it panics only on an
answer of `ModelUUIDs` without UUID. -/
theorem modelUUID_answers (env : Env) (c : extMigrateCommand) (h : History) :
    ∃ k, (modelUUID env c h).2 = h ++ k ∧ answered env h k = true ∧
      (∀ m, (modelUUID env c h).1 = .runtimePanic m →
        ∃ pre, k = pre ++ [⟨.ModelUUIDs [c.model], none⟩] ∧
          env.ModelUUIDs (h ++ pre) [c.model] = .ok []) := by
  rcases modelUUID_cases env c h with ⟨e, he, hr⟩ | ⟨he, hr⟩ | ⟨u, rest, he, hr⟩
  · refine ⟨_, by rw [hr], by simp [answered, Env.outcome, he, errOf], ?_⟩
    intro m hm
    rw [hr] at hm
    exact absurd hm (by simp)
  · refine ⟨_, by rw [hr], by simp [answered, Env.outcome, he, errOf], ?_⟩
    intro m _
    exact ⟨[], rfl, by simpa using he⟩
  · refine ⟨_, by rw [hr], by simp [answered, Env.outcome, he, errOf], ?_⟩
    intro m hm
    rw [hr] at hm
    exact absurd hm (by simp)

/-- A panic found after further events is a panic of the whole run of events. -/
theorem panic_after (env : Env) (c : extMigrateCommand) (h a k : History)
    (hp : ∃ pre, k = pre ++ [⟨.ModelUUIDs [c.model], none⟩] ∧
      env.ModelUUIDs (h ++ a ++ pre) [c.model] = .ok []) :
    ∃ pre, a ++ k = pre ++ [⟨.ModelUUIDs [c.model], none⟩] ∧
      env.ModelUUIDs (h ++ pre) [c.model] = .ok [] := by
  obtain ⟨pre, hk, he⟩ := hp
  refine ⟨a ++ pre, by rw [hk, List.append_assoc], ?_⟩
  rw [← List.append_assoc]
  exact he

/-- The calls of `getMigrationSpec` carry the answers of the collaborators; it panics only on
an answer of `ModelUUIDs` without UUID. -/
theorem getMigrationSpec_answers (env : Env) (c : extMigrateCommand) (h : History) :
    ∃ k, (getMigrationSpec env c h).2 = h ++ k ∧ answered env h k = true ∧
      (∀ m, (getMigrationSpec env c h).1 = .runtimePanic m →
        ∃ pre, k = pre ++ [⟨.ModelUUIDs [c.model], none⟩] ∧
          env.ModelUUIDs (h ++ pre) [c.model] = .ok []) := by
  obtain ⟨k1, hk1, ha1, hp1⟩ := modelUUID_answers env c h
  unfold getMigrationSpec
  rcases hm : modelUUID env c h with ⟨r, h1⟩
  rw [hm] at hk1 hp1
  simp only at hk1 hp1
  subst hk1
  cases r with
  | err e =>
    refine ⟨k1, rfl, ha1, ?_⟩
    intro m hm
    exact absurd hm (by simp)
  | runtimePanic m0 => exact ⟨k1, rfl, ha1, fun _ _ => hp1 m0 rfl⟩
  | ok u =>
    simp only
    cases hc : env.ControllerByName (h ++ k1) c.targetController with
    | error e =>
      refine ⟨k1 ++ [⟨.ControllerByName c.targetController, some e⟩], by simp [errOf], ?_,
        by simp⟩
      rw [answered_append, ha1]
      simp [answered, Env.outcome, hc, errOf]
    | ok ci =>
      simp only [errOf]
      cases ha : env.AccountDetails (h ++ k1 ++ [⟨.ControllerByName c.targetController, none⟩])
          c.targetController with
      | error e =>
        refine ⟨k1 ++ [⟨.ControllerByName c.targetController, none⟩,
          ⟨.AccountDetails c.targetController, some e⟩], by simp [errOf], ?_, by simp⟩
        rw [answered_append, ha1]
        simp only [answered, Env.outcome, hc, ha, errOf, decide_True, Bool.and_self]
      | ok ai =>
        simp only [errOf]
        by_cases hempty : ai.Macaroon = ""
        · refine ⟨k1 ++ [⟨.ControllerByName c.targetController, none⟩,
            ⟨.AccountDetails c.targetController, none⟩], by simp [hempty], ?_,
            by simp [hempty]⟩
          rw [answered_append, ha1]
          simp only [answered, Env.outcome, hc, ha, errOf, decide_True, Bool.and_self]
        · cases hu : env.UnmarshalJSON ai.Macaroon with
          | error e =>
            refine ⟨k1 ++ [⟨.ControllerByName c.targetController, none⟩,
              ⟨.AccountDetails c.targetController, none⟩,
              ⟨.UnmarshalJSON ai.Macaroon, some e⟩], by simp [hempty, hu, errOf], ?_,
              by simp [hempty, hu]⟩
            rw [answered_append, ha1]
            simp only [answered, Env.outcome, hc, ha, hu, errOf, decide_True, Bool.and_self]
          | ok mac =>
            refine ⟨k1 ++ [⟨.ControllerByName c.targetController, none⟩,
              ⟨.AccountDetails c.targetController, none⟩,
              ⟨.UnmarshalJSON ai.Macaroon, none⟩], by simp [hempty, hu, errOf], ?_,
              by simp [hempty, hu]⟩
            rw [answered_append, ha1]
            simp only [answered, Env.outcome, hc, ha, hu, errOf, decide_True, Bool.and_self]

/-- The calls of `connectMigrationMaster` carry the answers of the collaborators; it panics
only on an answer of `ModelUUIDs` without UUID. -/
theorem connectMigrationMaster_answers (env : Env) (c : extMigrateCommand) (h : History) :
    ∃ k, (connectMigrationMaster env c h).2 = h ++ k ∧ answered env h k = true ∧
      (∀ m, (connectMigrationMaster env c h).1 = .runtimePanic m →
        ∃ pre, k = pre ++ [⟨.ModelUUIDs [c.model], none⟩] ∧
          env.ModelUUIDs (h ++ pre) [c.model] = .ok []) := by
  unfold connectMigrationMaster
  cases hc : env.ControllerByName h c.base.controllerName with
  | error e =>
    exact ⟨[⟨.ControllerByName c.base.controllerName, some e⟩], by simp [errOf],
      by simp [answered, Env.outcome, hc, errOf], by simp⟩
  | ok ci =>
    simp only [errOf]
    obtain ⟨k1, hk1, ha1, hp1⟩ :=
      modelUUID_answers env c (h ++ [⟨.ControllerByName c.base.controllerName, none⟩])
    rcases hm : modelUUID env c (h ++ [⟨.ControllerByName c.base.controllerName, none⟩])
      with ⟨r, h1⟩
    rw [hm] at hk1 hp1
    simp only at hk1 hp1
    subst hk1
    rw [hm]
    have hans : answered env h
        (([⟨.ControllerByName c.base.controllerName, none⟩] : History) ++ k1) = true := by
      rw [answered_append, ha1]
      simp [answered, Env.outcome, hc, errOf]
    cases r with
    | err e =>
      refine ⟨[⟨.ControllerByName c.base.controllerName, none⟩] ++ k1, by simp, hans, ?_⟩
      intro m hm'
      exact absurd hm' (by simp)
    | runtimePanic m0 =>
      exact ⟨[⟨.ControllerByName c.base.controllerName, none⟩] ++ k1, by simp, hans,
        fun _ _ => panic_after env c h _ k1 (hp1 m0 rfl)⟩
    | ok u =>
      simp only
      have hassoc : h ++ (([⟨.ControllerByName c.base.controllerName, none⟩] : History) ++ k1) =
          h ++ [⟨.ControllerByName c.base.controllerName, none⟩] ++ k1 :=
        (List.append_assoc _ _ _).symm
      cases ho : env.Open (h ++ [⟨.ControllerByName c.base.controllerName, none⟩] ++ k1)
          ⟨ci.APIEndpoints, ci.CACert, ⟨u⟩, c.machineTag, c.machinePassword, c.machineNonce⟩ with
      | error e =>
        refine ⟨([⟨.ControllerByName c.base.controllerName, none⟩] ++ k1) ++
            [⟨.Open ⟨ci.APIEndpoints, ci.CACert, ⟨u⟩, c.machineTag, c.machinePassword,
              c.machineNonce⟩, some e⟩], by simp [errOf], ?_, by simp⟩
        rw [answered_append, hans, hassoc]
        simp only [answered, Env.outcome, ho, errOf, decide_True, Bool.and_self]
      | ok conn =>
        refine ⟨([⟨.ControllerByName c.base.controllerName, none⟩] ++ k1) ++
            [⟨.Open ⟨ci.APIEndpoints, ci.CACert, ⟨u⟩, c.machineTag, c.machinePassword,
              c.machineNonce⟩, none⟩], by simp [errOf], ?_, by simp⟩
        rw [answered_append, hans, hassoc]
        simp only [answered, Env.outcome, ho, errOf, decide_True, Bool.and_self]

/-- The calls of `Run` carry the answers of the collaborators; it panics only on an answer
of `ModelUUIDs` without UUID. -/
theorem Run_answers (env : Env) (c : extMigrateCommand) (h : History) :
    ∃ k, (Run env c h).2 = h ++ k ∧ answered env h k = true ∧
      (∀ m, (Run env c h).1 = .runtimePanic m →
        ∃ pre, k = pre ++ [⟨.ModelUUIDs [c.model], none⟩] ∧
          env.ModelUUIDs (h ++ pre) [c.model] = .ok []) := by
  obtain ⟨k1, hk1, ha1, hp1⟩ := getMigrationSpec_answers env c h
  unfold Run
  rcases hg : getMigrationSpec env c h with ⟨r, h1⟩
  rw [hg] at hk1 hp1
  simp only at hk1 hp1
  subst hk1
  cases r with
  | err e =>
    refine ⟨k1, rfl, ha1, ?_⟩
    intro m hm
    exact absurd hm (by simp)
  | runtimePanic m0 => exact ⟨k1, rfl, ha1, fun _ _ => hp1 m0 rfl⟩
  | ok spec =>
    simp only
    cases hapi : env.NewControllerAPIClient (h ++ k1) with
    | error e =>
      refine ⟨k1 ++ [⟨.NewControllerAPIClient, some e⟩], by simp [errOf], ?_, by simp⟩
      rw [answered_append, ha1]
      simp only [answered, Env.outcome, hapi, errOf, decide_True, Bool.and_self]
    | ok api =>
      simp only [errOf]
      cases hinit : env.InitiateMigration (h ++ k1 ++ [⟨.NewControllerAPIClient, none⟩]) api
          spec with
      | error e =>
        refine ⟨k1 ++ [⟨.NewControllerAPIClient, none⟩,
          ⟨.InitiateMigration api spec, some e⟩], by simp [errOf], ?_, by simp⟩
        rw [answered_append, ha1]
        simp only [answered, Env.outcome, hapi, hinit, errOf, decide_True, Bool.and_self]
      | ok id =>
        simp only [errOf]
        have hans2 : answered env h (k1 ++ [⟨.NewControllerAPIClient, none⟩,
            ⟨.InitiateMigration api spec, none⟩,
            ⟨.Infof "Migration started with ID %q" [id], none⟩,
            ⟨.Sleep (5 * Second), none⟩]) = true := by
          rw [answered_append, ha1]
          simp only [answered, Env.outcome, hapi, hinit, errOf, decide_True, Bool.and_self]
        have hh : h ++ k1 ++ [⟨.NewControllerAPIClient, none⟩] ++
            [⟨.InitiateMigration api spec, none⟩] ++
            [⟨.Infof "Migration started with ID %q" [id], none⟩] ++
            [⟨.Sleep (5 * Second), none⟩] =
            h ++ (k1 ++ [⟨.NewControllerAPIClient, none⟩,
              ⟨.InitiateMigration api spec, none⟩,
              ⟨.Infof "Migration started with ID %q" [id], none⟩,
              ⟨.Sleep (5 * Second), none⟩]) := by simp
        rw [hh]
        generalize k1 ++ [⟨.NewControllerAPIClient, none⟩,
            ⟨.InitiateMigration api spec, none⟩,
            ⟨.Infof "Migration started with ID %q" [id], none⟩,
            ⟨.Sleep (5 * Second), none⟩] = k2 at hans2
        obtain ⟨k3, hk3, ha3, hp3⟩ := connectMigrationMaster_answers env c (h ++ k2)
        rcases hconn : connectMigrationMaster env c (h ++ k2) with ⟨r, h3⟩
        rw [hconn] at hk3 hp3
        simp only at hk3 hp3
        subst hk3
        have hans3 : answered env h (k2 ++ k3) = true := by
          rw [answered_append, hans2, ha3]
          rfl
        cases r with
        | err e =>
          refine ⟨k2 ++ k3, by simp, hans3, ?_⟩
          intro m hm
          exact absurd hm (by simp)
        | runtimePanic m0 =>
          exact ⟨k2 ++ k3, by simp, hans3, fun _ _ => panic_after env c h k2 k3 (hp3 m0 rfl)⟩
        | ok masterClient =>
          have hh3 : h ++ k2 ++ k3 = h ++ (k2 ++ k3) := by simp
          rw [hh3]
          generalize k2 ++ k3 = k4 at hans3
          simp only
          cases hab : env.SetPhase (h ++ k4 ++ [⟨.Infof "Set phase to ABORT" [], none⟩])
              masterClient .ABORT with
          | some e =>
            refine ⟨k4 ++ [⟨.Infof "Set phase to ABORT" [], none⟩,
              ⟨.SetPhase masterClient .ABORT, some e⟩], by simp, ?_, by simp⟩
            rw [answered_append, hans3]
            simp only [answered, Env.outcome, hab, decide_True, Bool.and_self]
          | none =>
            simp only
            cases habd : env.SetPhase (h ++ k4 ++ [⟨.Infof "Set phase to ABORT" [], none⟩] ++
                [⟨.SetPhase masterClient .ABORT, none⟩] ++
                [⟨.Infof "Set phase to ABORTDONE" [], none⟩]) masterClient .ABORTDONE with
            | some e =>
              refine ⟨k4 ++ [⟨.Infof "Set phase to ABORT" [], none⟩,
                ⟨.SetPhase masterClient .ABORT, none⟩,
                ⟨.Infof "Set phase to ABORTDONE" [], none⟩,
                ⟨.SetPhase masterClient .ABORTDONE, some e⟩], by simp, ?_, by simp⟩
              rw [answered_append, hans3]
              simp only [answered, Env.outcome, hab, habd, decide_True, Bool.and_self]
            | none =>
              refine ⟨k4 ++ [⟨.Infof "Set phase to ABORT" [], none⟩,
                ⟨.SetPhase masterClient .ABORT, none⟩,
                ⟨.Infof "Set phase to ABORTDONE" [], none⟩,
                ⟨.SetPhase masterClient .ABORTDONE, none⟩], by simp, ?_, by simp⟩
              rw [answered_append, hans3]
              simp only [answered, Env.outcome, hab, habd, decide_True, Bool.and_self]

/-- `Run` when every collaborator accepts: the spec is built, the API client is obtained, the
migration is initiated, the source controller and the model UUID are looked up again, the
connection is opened and both phases are accepted. `Run` then returns nil with exactly these
calls recorded. -/
theorem Run_all_accept (env : Env) (c : extMigrateCommand) (h h1 : History)
    (spec : MigrationSpec) (api : APIClient) (id : String) (ci : ControllerDetails)
    (u : String) (rest : List String) (conn : Connection)
    (hspec : getMigrationSpec env c h = (.ok spec, h1))
    (hapi : env.NewControllerAPIClient h1 = .ok api)
    (hinit : env.InitiateMigration (h1 ++ [⟨.NewControllerAPIClient, none⟩]) api spec = .ok id)
    (hcb : env.ControllerByName
      (h1 ++ [⟨.NewControllerAPIClient, none⟩, ⟨.InitiateMigration api spec, none⟩,
              ⟨.Infof "Migration started with ID %q" [id], none⟩, ⟨.Sleep (5 * Second), none⟩])
      c.base.controllerName = .ok ci)
    (hmu : env.ModelUUIDs
      (h1 ++ [⟨.NewControllerAPIClient, none⟩, ⟨.InitiateMigration api spec, none⟩,
              ⟨.Infof "Migration started with ID %q" [id], none⟩, ⟨.Sleep (5 * Second), none⟩,
              ⟨.ControllerByName c.base.controllerName, none⟩])
      [c.model] = .ok (u :: rest))
    (hopen : env.Open
      (h1 ++ [⟨.NewControllerAPIClient, none⟩, ⟨.InitiateMigration api spec, none⟩,
              ⟨.Infof "Migration started with ID %q" [id], none⟩, ⟨.Sleep (5 * Second), none⟩,
              ⟨.ControllerByName c.base.controllerName, none⟩,
              ⟨.ModelUUIDs [c.model], none⟩])
      ⟨ci.APIEndpoints, ci.CACert, ⟨u⟩, c.machineTag, c.machinePassword, c.machineNonce⟩
        = .ok conn)
    (habort : env.SetPhase
      (h1 ++ [⟨.NewControllerAPIClient, none⟩, ⟨.InitiateMigration api spec, none⟩,
              ⟨.Infof "Migration started with ID %q" [id], none⟩, ⟨.Sleep (5 * Second), none⟩,
              ⟨.ControllerByName c.base.controllerName, none⟩,
              ⟨.ModelUUIDs [c.model], none⟩,
              ⟨.Open ⟨ci.APIEndpoints, ci.CACert, ⟨u⟩, c.machineTag, c.machinePassword,
                c.machineNonce⟩, none⟩,
              ⟨.Infof "Set phase to ABORT" [], none⟩])
      ⟨conn⟩ .ABORT = none)
    (habortdone : env.SetPhase
      (h1 ++ [⟨.NewControllerAPIClient, none⟩, ⟨.InitiateMigration api spec, none⟩,
              ⟨.Infof "Migration started with ID %q" [id], none⟩, ⟨.Sleep (5 * Second), none⟩,
              ⟨.ControllerByName c.base.controllerName, none⟩,
              ⟨.ModelUUIDs [c.model], none⟩,
              ⟨.Open ⟨ci.APIEndpoints, ci.CACert, ⟨u⟩, c.machineTag, c.machinePassword,
                c.machineNonce⟩, none⟩,
              ⟨.Infof "Set phase to ABORT" [], none⟩,
              ⟨.SetPhase ⟨conn⟩ .ABORT, none⟩,
              ⟨.Infof "Set phase to ABORTDONE" [], none⟩])
      ⟨conn⟩ .ABORTDONE = none) :
    Run env c h =
      (.ok (),
        h1 ++ [⟨.NewControllerAPIClient, none⟩, ⟨.InitiateMigration api spec, none⟩,
               ⟨.Infof "Migration started with ID %q" [id], none⟩, ⟨.Sleep (5 * Second), none⟩,
               ⟨.ControllerByName c.base.controllerName, none⟩,
               ⟨.ModelUUIDs [c.model], none⟩,
               ⟨.Open ⟨ci.APIEndpoints, ci.CACert, ⟨u⟩, c.machineTag, c.machinePassword,
                 c.machineNonce⟩, none⟩,
               ⟨.Infof "Set phase to ABORT" [], none⟩,
               ⟨.SetPhase ⟨conn⟩ .ABORT, none⟩,
               ⟨.Infof "Set phase to ABORTDONE" [], none⟩,
               ⟨.SetPhase ⟨conn⟩ .ABORTDONE, none⟩]) := by
  unfold Run
  rw [hspec]
  simp only [hapi, hinit, errOf, List.append_assoc, List.cons_append, List.nil_append]
  unfold connectMigrationMaster
  simp only [hcb, errOf, List.append_assoc, List.cons_append, List.nil_append]
  unfold modelUUID
  simp only [hmu, hopen, habort, habortdone, errOf, List.append_assoc, List.cons_append,
    List.nil_append]

/-- C10: the calls of `Run`, for every behaviour of the collaborators.
First part, every collaborator call succeeds: when the spec is built, `NewControllerAPIClient`
and `InitiateMigration` accept, the second lookups of the source controller and of the model
UUID succeed, `api.Open` connects and both `SetPhase` requests are accepted, `Run` returns nil
and its remote requests are exactly the migration request with the spec of `getMigrationSpec`,
one connection, `SetPhase(ABORT)`, `SetPhase(ABORTDONE)`, each once and in that order.
Second part, every combination of outcomes: `Run` only appends calls to the history; every
recorded outcome is the answer the collaborators give to that call at that point; an error
of `Run` means successful calls followed by one failing call, the last one; without error
every call made succeeded; a panic means the last call is a `ModelUUIDs` answered without
UUID; the remote requests are an initial segment of the four, none without a spec, and all
four when `Run` returns nil. -/
theorem Run_call_sequence (env : Env) (c : extMigrateCommand) (h : History) :
    (∀ (h1 : History) (spec : MigrationSpec) (api : APIClient) (id : String)
        (ci : ControllerDetails) (u : String) (rest : List String) (conn : Connection),
      getMigrationSpec env c h = (.ok spec, h1) →
      env.NewControllerAPIClient h1 = .ok api →
      env.InitiateMigration (h1 ++ [⟨.NewControllerAPIClient, none⟩]) api spec = .ok id →
      env.ControllerByName
        (h1 ++ [⟨.NewControllerAPIClient, none⟩, ⟨.InitiateMigration api spec, none⟩,
                ⟨.Infof "Migration started with ID %q" [id], none⟩,
                ⟨.Sleep (5 * Second), none⟩])
        c.base.controllerName = .ok ci →
      env.ModelUUIDs
        (h1 ++ [⟨.NewControllerAPIClient, none⟩, ⟨.InitiateMigration api spec, none⟩,
                ⟨.Infof "Migration started with ID %q" [id], none⟩,
                ⟨.Sleep (5 * Second), none⟩,
                ⟨.ControllerByName c.base.controllerName, none⟩])
        [c.model] = .ok (u :: rest) →
      env.Open
        (h1 ++ [⟨.NewControllerAPIClient, none⟩, ⟨.InitiateMigration api spec, none⟩,
                ⟨.Infof "Migration started with ID %q" [id], none⟩,
                ⟨.Sleep (5 * Second), none⟩,
                ⟨.ControllerByName c.base.controllerName, none⟩,
                ⟨.ModelUUIDs [c.model], none⟩])
        ⟨ci.APIEndpoints, ci.CACert, ⟨u⟩, c.machineTag, c.machinePassword, c.machineNonce⟩
          = .ok conn →
      env.SetPhase
        (h1 ++ [⟨.NewControllerAPIClient, none⟩, ⟨.InitiateMigration api spec, none⟩,
                ⟨.Infof "Migration started with ID %q" [id], none⟩,
                ⟨.Sleep (5 * Second), none⟩,
                ⟨.ControllerByName c.base.controllerName, none⟩,
                ⟨.ModelUUIDs [c.model], none⟩,
                ⟨.Open ⟨ci.APIEndpoints, ci.CACert, ⟨u⟩, c.machineTag, c.machinePassword,
                  c.machineNonce⟩, none⟩,
                ⟨.Infof "Set phase to ABORT" [], none⟩])
        ⟨conn⟩ .ABORT = none →
      env.SetPhase
        (h1 ++ [⟨.NewControllerAPIClient, none⟩, ⟨.InitiateMigration api spec, none⟩,
                ⟨.Infof "Migration started with ID %q" [id], none⟩,
                ⟨.Sleep (5 * Second), none⟩,
                ⟨.ControllerByName c.base.controllerName, none⟩,
                ⟨.ModelUUIDs [c.model], none⟩,
                ⟨.Open ⟨ci.APIEndpoints, ci.CACert, ⟨u⟩, c.machineTag, c.machinePassword,
                  c.machineNonce⟩, none⟩,
                ⟨.Infof "Set phase to ABORT" [], none⟩,
                ⟨.SetPhase ⟨conn⟩ .ABORT, none⟩,
                ⟨.Infof "Set phase to ABORTDONE" [], none⟩])
        ⟨conn⟩ .ABORTDONE = none →
      Run env c h =
        (.ok (),
          h1 ++ [⟨.NewControllerAPIClient, none⟩, ⟨.InitiateMigration api spec, none⟩,
                 ⟨.Infof "Migration started with ID %q" [id], none⟩,
                 ⟨.Sleep (5 * Second), none⟩,
                 ⟨.ControllerByName c.base.controllerName, none⟩,
                 ⟨.ModelUUIDs [c.model], none⟩,
                 ⟨.Open ⟨ci.APIEndpoints, ci.CACert, ⟨u⟩, c.machineTag, c.machinePassword,
                   c.machineNonce⟩, none⟩,
                 ⟨.Infof "Set phase to ABORT" [], none⟩,
                 ⟨.SetPhase ⟨conn⟩ .ABORT, none⟩,
                 ⟨.Infof "Set phase to ABORTDONE" [], none⟩,
                 ⟨.SetPhase ⟨conn⟩ .ABORTDONE, none⟩]) ∧
      remoteCalls (runEvents env c h) =
        [.InitiateMigration spec, .Connect, .SetPhase .ABORT, .SetPhase .ABORTDONE]) ∧
    (Run env c h).2 = h ++ runEvents env c h ∧
    (∀ pre ev post, runEvents env c h = pre ++ ev :: post →
      ev.err = env.outcome (h ++ pre) ev.call) ∧
    (∀ e, (Run env c h).1 = .err e →
      ∃ pre ev, runEvents env c h = pre ++ [ev] ∧ allSucceeded pre = true ∧ ev.err ≠ none) ∧
    ((∀ e, (Run env c h).1 ≠ .err e) → allSucceeded (runEvents env c h) = true) ∧
    (∀ m, (Run env c h).1 = .runtimePanic m →
      ∃ pre, runEvents env c h = pre ++ [⟨.ModelUUIDs [c.model], none⟩] ∧
        env.ModelUUIDs (h ++ pre) [c.model] = .ok []) ∧
    (∀ spec h1, getMigrationSpec env c h = (.ok spec, h1) →
      remoteCalls (runEvents env c h) <+:
        [.InitiateMigration spec, .Connect, .SetPhase .ABORT, .SetPhase .ABORTDONE]) ∧
    ((∀ spec h1, getMigrationSpec env c h ≠ (.ok spec, h1)) →
      remoteCalls (runEvents env c h) = []) ∧
    ((Run env c h).1 = .ok () →
      ∃ spec h1, getMigrationSpec env c h = (.ok spec, h1) ∧
        remoteCalls (runEvents env c h) =
          [.InitiateMigration spec, .Connect, .SetPhase .ABORT, .SetPhase .ABORTDONE]) := by
  obtain ⟨k, hk, hs, hrc⟩ := Run_shape env c h
  obtain ⟨k', hk', hans, hpanic⟩ := Run_answers env c h
  have hkk : k' = k := List.append_cancel_left (hk'.symm.trans hk)
  subst hkk
  have hev : runEvents env c h = k' := by
    unfold runEvents
    rw [hk, List.drop_left]
  rw [hev]
  refine ⟨?_, hk, answered_spec env h k' hans, ?_, ?_, hpanic, ?_, ?_, ?_⟩
  · intro h1 spec api id ci u rest conn hspec hapi hinit hcb hmu hopen habort habortdone
    have hrun := Run_all_accept env c h h1 spec api id ci u rest conn hspec hapi hinit hcb hmu
      hopen habort habortdone
    refine ⟨hrun, ?_⟩
    rw [hspec] at hrc
    exact hrc.2 (by rw [hrun])
  · intro e he
    rw [he] at hs
    exact (endsWithFailure_iff k').mp hs
  · intro hne
    cases hr : (Run env c h).1 with
    | err e => exact absurd hr (hne e)
    | runtimePanic m => rw [hr] at hs; exact hs
    | ok u => rw [hr] at hs; exact hs
  · intro spec h1 hg
    rw [hg] at hrc
    exact hrc.1
  · intro hno
    rcases hg : getMigrationSpec env c h with ⟨r, h1⟩
    rw [hg] at hrc
    cases r with
    | err e => exact hrc.1
    | runtimePanic m => exact hrc.1
    | ok spec => exact absurd hg (hno spec h1)
  · intro hok
    rcases hg : getMigrationSpec env c h with ⟨r, h1⟩
    rw [hg] at hrc
    cases r with
    | err e => exact absurd hok hrc.2
    | runtimePanic m => exact absurd hok hrc.2
    | ok spec => exact ⟨spec, h1, rfl, hrc.2 hok⟩

/-- Witness of C10: with collaborators that accept everything, `Run` returns nil after the
four remote requests. -/
theorem Run_call_sequence_witness :
    Run sampleEnv sampleReady [] =
      (.ok (),
        [⟨.ModelUUIDs ["model-a"], none⟩, ⟨.ControllerByName "ctrl-b", none⟩,
         ⟨.AccountDetails "ctrl-b", none⟩] ++
        [⟨.NewControllerAPIClient, none⟩, ⟨.InitiateMigration ⟨1⟩ sampleSpec, none⟩,
         ⟨.Infof "Migration started with ID %q" ["migration-1"], none⟩,
         ⟨.Sleep (5 * Second), none⟩,
         ⟨.ControllerByName "ctrl-a", none⟩,
         ⟨.ModelUUIDs ["model-a"], none⟩,
         ⟨.Open ⟨["s:1"], "S", ⟨"U1"⟩, ⟨"3"⟩, "pw123", "nonce-xyz"⟩, none⟩,
         ⟨.Infof "Set phase to ABORT" [], none⟩,
         ⟨.SetPhase ⟨⟨2⟩⟩ .ABORT, none⟩,
         ⟨.Infof "Set phase to ABORTDONE" [], none⟩,
         ⟨.SetPhase ⟨⟨2⟩⟩ .ABORTDONE, none⟩]) ∧
    remoteCalls (runEvents sampleEnv sampleReady []) =
      [.InitiateMigration sampleSpec, .Connect, .SetPhase .ABORT, .SetPhase .ABORTDONE] :=
  (Run_call_sequence sampleEnv sampleReady []).1
    [⟨.ModelUUIDs ["model-a"], none⟩, ⟨.ControllerByName "ctrl-b", none⟩,
      ⟨.AccountDetails "ctrl-b", none⟩]
    sampleSpec ⟨1⟩ "migration-1" ⟨"SRCID", ["s:1"], "S"⟩ "U1" [] ⟨2⟩
    rfl rfl rfl rfl rfl rfl rfl rfl

end ExtMigration
